import Mathlib

/-!
Verification development for the DataDriftDetector library
(src/data_drift_detector/data_drift_detector.py).

The Python source is shallowly embedded below.  Machine floats are modelled
by exact reals (for the statistical distances) and exact rationals (for the
stored data cells); pandas dataframes are modelled positionally (a column
list plus rows of cells); the external collaborators (scipy's jensenshannon
and gaussian_kde, sklearn's shuffle, category_encoders' CatBoostEncoder) are
embedded from their documented mathematical definitions or, where only the
wiring matters for a claim, taken as universally quantified functions.
-/

/-! ## Generic stable insertion sort

Python's builtin sorted() is a stable sort; with reverse=True it still keeps
elements with equal keys in their original relative order.  We model it by a
stable insertion sort parametrised by a boolean "goes no later than"
relation: insertLe le x l places x before the first y with le x y = true.
-/

def insertLe {α : Type} (le : α → α → Bool) (x : α) : List α → List α
  | [] => [x]
  | y :: ys => if le x y then x :: y :: ys else y :: insertLe le x ys

def isortLe {α : Type} (le : α → α → Bool) : List α → List α
  | [] => []
  | x :: xs => insertLe le x (isortLe le xs)

theorem insertLe_perm {α : Type} (le : α → α → Bool) (x : α) (l : List α) :
    List.Perm (insertLe le x l) (x :: l) := by
  induction l with
  | nil => simp [insertLe]
  | cons y ys ih =>
    simp only [insertLe]
    split
    · exact List.Perm.refl _
    · exact ((ih.cons y).trans (List.Perm.swap x y ys))

theorem isortLe_perm {α : Type} (le : α → α → Bool) (l : List α) :
    List.Perm (isortLe le l) l := by
  induction l with
  | nil => simp [isortLe]
  | cons x xs ih =>
    exact (insertLe_perm le x (isortLe le xs)).trans (ih.cons x)

theorem pairwise_insertLe {α : Type} (le : α → α → Bool)
    (htrans : ∀ a b c, le a b = true → le b c = true → le a c = true)
    (htot : ∀ a b, le a b = true ∨ le b a = true)
    (x : α) (l : List α) (h : l.Pairwise (fun a b => le a b = true)) :
    (insertLe le x l).Pairwise (fun a b => le a b = true) := by
  induction l with
  | nil => simp [insertLe]
  | cons y ys ih =>
    simp only [insertLe]
    rcases List.pairwise_cons.mp h with ⟨hy, hys⟩
    split
    next hxy =>
      refine List.pairwise_cons.mpr ⟨?_, h⟩
      intro z hz
      rcases List.mem_cons.mp hz with rfl | hz
      · exact hxy
      · exact htrans x y z hxy (hy _ hz)
    next hxy =>
      refine List.pairwise_cons.mpr ⟨?_, ih hys⟩
      intro z hz
      have hz' := List.mem_cons.mp ((insertLe_perm le x ys).mem_iff.mp hz)
      rcases hz' with rfl | hz'
      · rcases htot z y with hxy' | hyx
        · exact absurd hxy' hxy
        · exact hyx
      · exact hy _ hz'

theorem filter_insertLe_pos {α : Type} (le : α → α → Bool) (P : α → Bool)
    (x : α) (l : List α) (hx : P x = true)
    (hle : ∀ y ∈ l, P y = true → le x y = true) :
    (insertLe le x l).filter P = x :: l.filter P := by
  induction l with
  | nil => simp [insertLe, hx]
  | cons y ys ih =>
    simp only [insertLe]
    split
    next hxy => simp [List.filter, hx]
    next hxy =>
      have hPy : P y = false := by
        cases hPy : P y with
        | false => rfl
        | true => exact absurd (hle y (by simp) hPy) hxy
      have ih' := ih (fun z hz hPz => hle z (by simp [hz]) hPz)
      simp [List.filter, hPy, ih']

theorem filter_insertLe_neg {α : Type} (le : α → α → Bool) (P : α → Bool)
    (x : α) (l : List α) (hx : P x = false) :
    (insertLe le x l).filter P = l.filter P := by
  induction l with
  | nil => simp [insertLe, hx]
  | cons y ys ih =>
    simp only [insertLe]
    split
    next hxy => simp [List.filter, hx]
    next hxy =>
      cases hPy : P y with
      | false => simp [List.filter, hPy, ih]
      | true => simp [List.filter, hPy, ih]

theorem filter_isortLe {α : Type} (le : α → α → Bool) (P : α → Bool)
    (hPle : ∀ a b, P a = true → P b = true → le a b = true)
    (l : List α) : (isortLe le l).filter P = l.filter P := by
  induction l with
  | nil => simp [isortLe]
  | cons x xs ih =>
    simp only [isortLe]
    cases hx : P x with
    | true =>
      rw [filter_insertLe_pos le P x (isortLe le xs) hx
        (fun y _ hPy => hPle x y hx hPy), ih]
      simp [List.filter, hx]
    | false =>
      rw [filter_insertLe_neg le P x (isortLe le xs) hx, ih]
      simp [List.filter, hx]

/-! ## Drift quantification engine

Embedding of DataDriftDetector.calculate_drift (source lines 121-195) and of
its external collaborators: scipy.spatial.distance.jensenshannon (base e) and
scipy.stats.gaussian_kde (Gaussian kernel, Scott bandwidth, one dimension).
Column data is stored per column: after normalisation in __init__ a
categorical column holds strings and a numeric column holds floats, modelled
as exact rationals; real arithmetic is exact (no floating rounding).
-/

namespace Drift

/-- Errors calculate_drift can raise.  keyError s models the pandas KeyError
raised at line 161-162 when the pivoted frame lacks a prior or post column
(which happens exactly when that dataset has no rows); insufficientData c
models the scipy error (LinAlgError or ValueError) raised by
gaussian_kde at lines 170-171 when column c has fewer than 2 distinct
values in one of the datasets (zero variance or fewer than 2 points). -/
inductive DriftErr where
  | keyError : String → DriftErr
  | insufficientData : String → DriftErr
deriving DecidableEq

/-- Result value for one side of the report.  Source lines 190-193 replace
the accumulation dict by a sorted list of pairs only when it is nonempty:
an empty side is returned as the untouched empty dict, hence the two
constructors. -/
inductive DriftVal where
  | asDict : List (String × ℝ) → DriftVal
  | asList : List (String × ℝ) → DriftVal

/-- Return value of calculate_drift (source line 195). -/
structure DriftReport where
  categorical : DriftVal
  numerical : DriftVal

/-- Normalised detector state (source lines 114-118): role lists plus the
normalised column data of both datasets, per column name. -/
structure Detector where
  catCols : List String
  numCols : List String
  catPrior : String → List String
  catPost : String → List String
  numPrior : String → List ℚ
  numPost : String → List ℚ

/-- Pointwise term of scipy.special.rel_entr: x * log(x / y) when x > 0 and
0 when x = 0.  (The inf branch of rel_entr for x > 0, y = 0 cannot arise
below: the mixture entry is at least half of the corresponding numerator
entry.) -/
noncomputable def relEntr (x y : ℝ) : ℝ := if 0 < x then x * Real.log (x / y) else 0

/-- Division of a vector by its own sum, as scipy.jensenshannon does on
both inputs and as lines 182-183 do on the sampled KDE arrays. -/
noncomputable def normalize (l : List ℝ) : List ℝ := l.map (fun x => x / l.sum)

/-- Pointwise mixture m = (p + q) / 2 used by the Jensen-Shannon formula. -/
noncomputable def midVec (p q : List ℝ) : List ℝ :=
  List.zipWith (fun a b => (a + b) / 2) p q

/-- Sum of rel_entr terms: the Kullback-Leibler divergence as scipy sums it. -/
noncomputable def klSum (p m : List ℝ) : ℝ := (List.zipWith relEntr p m).sum

/-- scipy.spatial.distance.jensenshannon with default base e: normalise both
inputs, form the mixture, and return the square root of the averaged
Kullback-Leibler divergences. -/
noncomputable def jensenshannon (p q : List ℝ) : ℝ :=
  Real.sqrt ((klSum (normalize p) (midVec (normalize p) (normalize q))
    + klSum (normalize q) (midVec (normalize p) (normalize q))) / 2)

/-- Lexicographic comparison of character lists: the order Python uses on
strings and pandas uses to sort category labels. -/
def charsLeB : List Char → List Char → Bool
  | [], _ => true
  | _ :: _, [] => false
  | a :: as, b :: bs => if a < b then true else if b < a then false else charsLeB as bs

/-- Boolean string order used to model the sorted category index that
pandas groupby/pivot produces at lines 150-156. -/
def strLeB (a b : String) : Bool := charsLeB a.data b.data

/-- Union of the categories of both columns, sorted ascending: the row index
of the pivoted count frame at lines 150-156 (groupby sorts its keys). -/
def catUnion (xs ys : List String) : List String := isortLe strLeB ((xs ++ ys).dedup)

/-- Empirical probability of each category of cats in column xs: the count
pivot divided by its column sum (lines 157-158); a category absent from xs
has probability 0 (the fillna(0)).  The column sum of counts equals the
number of rows of that dataset. -/
noncomputable def probVec (xs : List String) (cats : List String) : List ℝ :=
  cats.map (fun v => ((xs.count v : ℝ)) / (xs.length : ℝ))

/-- Jensen-Shannon distance of one categorical column (lines 140-164). -/
noncomputable def catDistOne (xs ys : List String) : ℝ :=
  jensenshannon (probVec xs (catUnion xs ys)) (probVec ys (catUnion xs ys))

/-- Arithmetic mean, for the sample variance of gaussian_kde. -/
noncomputable def meanR (l : List ℝ) : ℝ := l.sum / l.length

/-- Unbiased sample variance (numpy.cov with bias=False), used by
gaussian_kde for its data covariance. -/
noncomputable def sampleVar (l : List ℝ) : ℝ :=
  (l.map (fun x => (x - meanR l) ^ 2)).sum / ((l.length : ℝ) - 1)

/-- Scott bandwidth factor n ** (-1/5) for a one-dimensional KDE. -/
noncomputable def scottFactor (n : ℕ) : ℝ := (n : ℝ) ^ (-(1/5 : ℝ))

/-- Effective kernel bandwidth: Scott factor times the sample standard
deviation. -/
noncomputable def bandwidth (l : List ℝ) : ℝ := Real.sqrt (sampleVar l) * scottFactor l.length

/-- Density of the fitted gaussian_kde at point x: average of Gaussian
kernels centred at the data points. -/
noncomputable def gaussKdeAt (l : List ℝ) (x : ℝ) : ℝ :=
  (l.map (fun xi => Real.exp (-(((x - xi) / bandwidth l) ^ 2) / 2))).sum
    / ((l.length : ℝ) * bandwidth l * Real.sqrt (2 * Real.pi))

/-- Minimum of a column (junk 0 on an empty column, which calculate_drift
never queries: the insufficient-data check fails first). -/
noncomputable def minD : List ℝ → ℝ
  | [] => 0
  | x :: xs => xs.foldl min x

/-- Maximum of a column, same convention as minD. -/
noncomputable def maxD : List ℝ → ℝ
  | [] => 0
  | x :: xs => xs.foldl max x

/-- numpy.linspace start..stop with n evenly spaced points (line 176). -/
noncomputable def linspace (a b : ℝ) (n : ℕ) : List ℝ :=
  (List.range n).map (fun i => a + (b - a) * i / ((n : ℝ) - 1))

/-- Grid resolution STEPS = 100 fixed at line 138. -/
def STEPS : ℕ := 100

/-- Number of distinct values of a numeric column; gaussian_kde fails
exactly when this is below 2 (no points, or zero variance). -/
def distinctCount (l : List ℚ) : ℕ := l.dedup.length

/-- Jensen-Shannon distance of one numeric column (lines 166-188): fit a KDE
per dataset, sample both on the joint min-max grid, normalise each sampled
array to sum 1, and take the Jensen-Shannon distance. -/
noncomputable def numDistOne (xs ys : List ℚ) : ℝ :=
  jensenshannon
    (normalize ((linspace (min (minD (xs.map (fun q => (q : ℝ)))) (minD (ys.map (fun q => (q : ℝ)))))
        (max (maxD (xs.map (fun q => (q : ℝ)))) (maxD (ys.map (fun q => (q : ℝ))))) STEPS).map
      (gaussKdeAt (xs.map (fun q => (q : ℝ))))))
    (normalize ((linspace (min (minD (xs.map (fun q => (q : ℝ)))) (minD (ys.map (fun q => (q : ℝ)))))
        (max (maxD (xs.map (fun q => (q : ℝ)))) (maxD (ys.map (fun q => (q : ℝ))))) STEPS).map
      (gaussKdeAt (ys.map (fun q => (q : ℝ))))))

/-- Categorical loop of calculate_drift (lines 140-164), in column order.
A dataset with no rows makes the pivot lack the prior (respectively post)
column, raising KeyError at the first categorical column processed. -/
noncomputable def catLoop (d : Detector) : List String → Except DriftErr (List (String × ℝ))
  | [] => .ok []
  | c :: cs =>
    if (d.catPrior c).isEmpty then .error (.keyError "prior")
    else if (d.catPost c).isEmpty then .error (.keyError "post")
    else do
      let rest ← catLoop d cs
      .ok ((c, catDistOne (d.catPrior c) (d.catPost c)) :: rest)

/-- Numeric loop of calculate_drift (lines 166-188), in column order:
gaussian_kde raises on the first column whose prior (checked first, line
170) or post (line 171) data has fewer than 2 distinct values. -/
noncomputable def numLoop (d : Detector) : List String → Except DriftErr (List (String × ℝ))
  | [] => .ok []
  | c :: cs =>
    if distinctCount (d.numPrior c) < 2 then .error (.insufficientData c)
    else if distinctCount (d.numPost c) < 2 then .error (.insufficientData c)
    else do
      let rest ← numLoop d cs
      .ok ((c, numDistOne (d.numPrior c) (d.numPost c)) :: rest)

/-- Comparator for sorted(..., key=lambda x: x[1], reverse=True): a goes no
later than b when its distance is at least b's; Python's sort is stable so
ties keep insertion (column) order. -/
noncomputable def scoreLeB (a b : String × ℝ) : Bool := decide (b.2 ≤ a.2)

/-- Stable descending sort by distance, as sorted(..., reverse=True). -/
noncomputable def sortDescStable (l : List (String × ℝ)) : List (String × ℝ) :=
  isortLe scoreLeB l

/-- Lines 190-193: a nonempty accumulation dict is replaced by the sorted
list of its items; an empty one is left as the empty dict. -/
noncomputable def packRes (l : List (String × ℝ)) : DriftVal :=
  if l.isEmpty then .asDict [] else .asList (sortDescStable l)

/-- calculate_drift (lines 121-195): categorical loop, numeric loop, then
packing of both sides into the returned report. -/
noncomputable def calculate_drift (d : Detector) : Except DriftErr DriftReport := do
  let cat ← catLoop d d.catCols
  let num ← numLoop d d.numCols
  .ok { categorical := packRes cat, numerical := packRes num }

/-- Detector built from the same two datasets passed in swapped order
(prior as post and post as prior), with the same role lists. -/
def swapDetector (d : Detector) : Detector :=
  { catCols := d.catCols, numCols := d.numCols,
    catPrior := d.catPost, catPost := d.catPrior,
    numPrior := d.numPost, numPost := d.numPrior }

/-- Underlying pair list of either DriftVal constructor. -/
def valList : DriftVal → List (String × ℝ)
  | .asDict l => l
  | .asList l => l

/-- All distance scores appearing in a calculate_drift result. -/
noncomputable def driftScores : Except DriftErr DriftReport → List ℝ
  | .error _ => []
  | .ok r => (valList r.categorical).map Prod.snd ++ (valList r.numerical).map Prod.snd

end Drift

namespace Drift

/-! ### Bounds of the Jensen-Shannon distance -/

theorem relEntr_mid_le (x y : ℝ) (hx : 0 ≤ x) (hy : 0 ≤ y) :
    relEntr x ((x + y) / 2) ≤ x * Real.log 2 := by
  unfold relEntr
  split
  next hpos =>
    have hxy : 0 < x + y := by linarith
    have harg : x / ((x + y) / 2) = 2 * x / (x + y) := by
      field_simp
      ring
    have hle2 : 2 * x / (x + y) ≤ 2 := by
      rw [div_le_iff₀ hxy]
      linarith
    have hargpos : 0 < 2 * x / (x + y) := by positivity
    have hlog : Real.log (x / ((x + y) / 2)) ≤ Real.log 2 := by
      rw [harg]
      exact Real.log_le_log hargpos hle2
    exact mul_le_mul_of_nonneg_left hlog hx
  next hpos =>
    exact mul_nonneg hx (Real.log_nonneg (by norm_num))

theorem klSum_mid_le (p q : List ℝ) (hp : ∀ x ∈ p, 0 ≤ x) (hq : ∀ x ∈ q, 0 ≤ x) :
    klSum p (midVec p q) ≤ Real.log 2 * p.sum := by
  induction p generalizing q with
  | nil => simp [klSum, midVec]
  | cons x xs ih =>
    cases q with
    | nil =>
      have hsum : 0 ≤ (x :: xs).sum := List.sum_nonneg hp
      have : Real.log 2 * (x :: xs).sum ≥ 0 :=
        mul_nonneg (Real.log_nonneg (by norm_num)) hsum
      simpa [klSum, midVec] using this
    | cons y ys =>
      have hx : 0 ≤ x := hp x (by simp)
      have hy : 0 ≤ y := hq y (by simp)
      have h1 : relEntr x ((x + y) / 2) ≤ x * Real.log 2 := relEntr_mid_le x y hx hy
      have h2 : klSum xs (midVec xs ys) ≤ Real.log 2 * xs.sum :=
        ih ys (fun z hz => hp z (List.mem_cons_of_mem _ hz))
          (fun z hz => hq z (List.mem_cons_of_mem _ hz))
      simp only [klSum, midVec, List.zipWith_cons_cons, List.sum_cons, List.sum_cons]
      have : relEntr x ((x + y) / 2) + (List.zipWith relEntr xs
          (List.zipWith (fun a b => (a + b) / 2) xs ys)).sum
          ≤ x * Real.log 2 + Real.log 2 * xs.sum := by
        exact add_le_add h1 (by simpa [klSum, midVec] using h2)
      calc relEntr x ((x + y) / 2) + (List.zipWith relEntr xs
            (List.zipWith (fun a b => (a + b) / 2) xs ys)).sum
          ≤ x * Real.log 2 + Real.log 2 * xs.sum := this
        _ = Real.log 2 * (x + xs.sum) := by ring

theorem midVec_comm (p q : List ℝ) : midVec p q = midVec q p := by
  unfold midVec
  exact List.zipWith_comm_of_comm _ (fun a b => by ring) p q

theorem sum_map_div (l : List ℝ) (S : ℝ) : (l.map (fun x => x / S)).sum = l.sum / S := by
  induction l with
  | nil => simp
  | cons x xs ih => simp [ih, add_div]

theorem normalize_nonneg (l : List ℝ) (h : ∀ x ∈ l, 0 ≤ x) :
    ∀ x ∈ normalize l, 0 ≤ x := by
  intro x hx
  rcases List.mem_map.mp hx with ⟨a, ha, rfl⟩
  exact div_nonneg (h a ha) (List.sum_nonneg h)

theorem normalize_sum_le_one (l : List ℝ) :
    (normalize l).sum ≤ 1 := by
  unfold normalize
  rw [sum_map_div]
  rcases eq_or_ne l.sum 0 with hS | hS
  · simp [hS]
  · rw [div_self hS]

theorem jensenshannon_nonneg (p q : List ℝ) : 0 ≤ jensenshannon p q :=
  Real.sqrt_nonneg _

theorem jensenshannon_le_sqrt_log_two (p q : List ℝ)
    (hp : ∀ x ∈ p, 0 ≤ x) (hq : ∀ x ∈ q, 0 ≤ x) :
    jensenshannon p q ≤ Real.sqrt (Real.log 2) := by
  unfold jensenshannon
  apply Real.sqrt_le_sqrt
  have hpn := normalize_nonneg p hp
  have hqn := normalize_nonneg q hq
  have h1 : klSum (normalize p) (midVec (normalize p) (normalize q))
      ≤ Real.log 2 * (normalize p).sum := klSum_mid_le _ _ hpn hqn
  have h2 : klSum (normalize q) (midVec (normalize p) (normalize q))
      ≤ Real.log 2 * (normalize q).sum := by
    rw [midVec_comm]
    exact klSum_mid_le _ _ hqn hpn
  have hlog : 0 ≤ Real.log 2 := Real.log_nonneg (by norm_num)
  have hps : (normalize p).sum ≤ 1 := normalize_sum_le_one p
  have hqs : (normalize q).sum ≤ 1 := normalize_sum_le_one q
  have h1' : klSum (normalize p) (midVec (normalize p) (normalize q)) ≤ Real.log 2 := by
    calc klSum (normalize p) (midVec (normalize p) (normalize q))
        ≤ Real.log 2 * (normalize p).sum := h1
      _ ≤ Real.log 2 * 1 := mul_le_mul_of_nonneg_left hps hlog
      _ = Real.log 2 := mul_one _
  have h2' : klSum (normalize q) (midVec (normalize p) (normalize q)) ≤ Real.log 2 := by
    calc klSum (normalize q) (midVec (normalize p) (normalize q))
        ≤ Real.log 2 * (normalize q).sum := h2
      _ ≤ Real.log 2 * 1 := mul_le_mul_of_nonneg_left hqs hlog
      _ = Real.log 2 := mul_one _
  linarith

theorem probVec_nonneg (xs cats : List String) : ∀ x ∈ probVec xs cats, 0 ≤ x := by
  intro x hx
  rcases List.mem_map.mp hx with ⟨v, _, rfl⟩
  positivity

theorem bandwidth_nonneg (l : List ℝ) : 0 ≤ bandwidth l :=
  mul_nonneg (Real.sqrt_nonneg _) (Real.rpow_nonneg (Nat.cast_nonneg _) _)

theorem gaussKdeAt_nonneg (l : List ℝ) (x : ℝ) : 0 ≤ gaussKdeAt l x := by
  unfold gaussKdeAt
  apply div_nonneg
  · apply List.sum_nonneg
    intro z hz
    rcases List.mem_map.mp hz with ⟨xi, _, rfl⟩
    exact (Real.exp_pos _).le
  · exact mul_nonneg (mul_nonneg (Nat.cast_nonneg _) (bandwidth_nonneg l))
      (Real.sqrt_nonneg _)

theorem catDistOne_bounds (xs ys : List String) :
    0 ≤ catDistOne xs ys ∧ catDistOne xs ys ≤ Real.sqrt (Real.log 2) :=
  ⟨jensenshannon_nonneg _ _,
   jensenshannon_le_sqrt_log_two _ _ (probVec_nonneg _ _) (probVec_nonneg _ _)⟩

theorem numDistOne_bounds (xs ys : List ℚ) :
    0 ≤ numDistOne xs ys ∧ numDistOne xs ys ≤ Real.sqrt (Real.log 2) := by
  constructor
  · exact jensenshannon_nonneg _ _
  · apply jensenshannon_le_sqrt_log_two
    · apply normalize_nonneg
      intro z hz
      rcases List.mem_map.mp hz with ⟨t, _, rfl⟩
      exact gaussKdeAt_nonneg _ _
    · apply normalize_nonneg
      intro z hz
      rcases List.mem_map.mp hz with ⟨t, _, rfl⟩
      exact gaussKdeAt_nonneg _ _

end Drift

namespace Drift

theorem exceptBind_error {ε α β : Type} (e : ε) (f : α → Except ε β) :
    (Except.error e >>= f) = Except.error e := rfl

theorem exceptBind_ok {ε α β : Type} (a : α) (f : α → Except ε β) :
    (Except.ok a >>= f) = f a := rfl

theorem catLoop_ok_forall (d : Detector) (cs : List String) (l : List (String × ℝ))
    (h : catLoop d cs = .ok l) :
    ∀ pr ∈ l, 0 ≤ pr.2 ∧ pr.2 ≤ Real.sqrt (Real.log 2) := by
  induction cs generalizing l with
  | nil =>
    simp only [catLoop, Except.ok.injEq] at h
    subst h
    intro pr hpr
    simp at hpr
  | cons c cs ih =>
    simp only [catLoop] at h
    split at h
    · exact Except.noConfusion h
    · split at h
      · exact Except.noConfusion h
      · cases hrest : catLoop d cs with
        | error e =>
          rw [hrest, exceptBind_error] at h
          exact Except.noConfusion h
        | ok rest =>
          rw [hrest, exceptBind_ok] at h
          simp only [Except.ok.injEq] at h
          subst h
          intro pr hpr
          rcases List.mem_cons.mp hpr with rfl | hpr
          · exact catDistOne_bounds _ _
          · exact ih rest hrest pr hpr

theorem numLoop_ok_forall (d : Detector) (cs : List String) (l : List (String × ℝ))
    (h : numLoop d cs = .ok l) :
    ∀ pr ∈ l, 0 ≤ pr.2 ∧ pr.2 ≤ Real.sqrt (Real.log 2) := by
  induction cs generalizing l with
  | nil =>
    simp only [numLoop, Except.ok.injEq] at h
    subst h
    intro pr hpr
    simp at hpr
  | cons c cs ih =>
    simp only [numLoop] at h
    split at h
    · exact Except.noConfusion h
    · split at h
      · exact Except.noConfusion h
      · cases hrest : numLoop d cs with
        | error e =>
          rw [hrest, exceptBind_error] at h
          exact Except.noConfusion h
        | ok rest =>
          rw [hrest, exceptBind_ok] at h
          simp only [Except.ok.injEq] at h
          subst h
          intro pr hpr
          rcases List.mem_cons.mp hpr with rfl | hpr
          · exact numDistOne_bounds _ _
          · exact ih rest hrest pr hpr

theorem mem_valList_packRes (l : List (String × ℝ)) (pr : String × ℝ)
    (h : pr ∈ valList (packRes l)) : pr ∈ l := by
  unfold packRes at h
  split at h
  · simp [valList] at h
  · exact (isortLe_perm scoreLeB l).mem_iff.mp h

end Drift

/-- C8: every drift score reported by calculate_drift lies in the closed
interval from 0 to sqrt(ln 2), for the categorical (count-based) columns
and for the KDE-based numeric columns alike; in this exact-real embedding
the bound is exact on both sides. -/
theorem C8_drift_scores_bounded (d : Drift.Detector) :
    (Drift.driftScores (Drift.calculate_drift d)).Forall
      (fun x => 0 ≤ x ∧ x ≤ Real.sqrt (Real.log 2)) := by
  rw [List.forall_iff_forall_mem]
  intro x hx
  cases hcat : Drift.catLoop d d.catCols with
  | error e =>
    simp [Drift.calculate_drift, Drift.driftScores, hcat,
      Drift.exceptBind_error] at hx
  | ok cat =>
    cases hnum : Drift.numLoop d d.numCols with
    | error e =>
      simp [Drift.calculate_drift, Drift.driftScores, hcat, hnum,
        Drift.exceptBind_error, Drift.exceptBind_ok] at hx
    | ok num =>
      simp only [Drift.calculate_drift, Drift.driftScores, hcat, hnum,
        Drift.exceptBind_error, Drift.exceptBind_ok, List.mem_append] at hx
      rcases hx with hx | hx
      · rcases List.mem_map.mp hx with ⟨pr, hpr, rfl⟩
        exact Drift.catLoop_ok_forall d d.catCols cat hcat pr
          (Drift.mem_valList_packRes cat pr hpr)
      · rcases List.mem_map.mp hx with ⟨pr, hpr, rfl⟩
        exact Drift.numLoop_ok_forall d d.numCols num hnum pr
          (Drift.mem_valList_packRes num pr hpr)

namespace Drift

theorem charsLeB_trans (a b c : List Char) (h₁ : charsLeB a b = true)
    (h₂ : charsLeB b c = true) : charsLeB a c = true := by
  induction a generalizing b c with
  | nil => rfl
  | cons x xs ih =>
    cases b with
    | nil => simp [charsLeB] at h₁
    | cons y ys =>
      cases c with
      | nil => simp [charsLeB] at h₂
      | cons z zs =>
        rcases lt_trichotomy x y with hxy | hxy | hxy
        · rcases lt_trichotomy y z with hyz | hyz | hyz
          · simp [charsLeB, lt_trans hxy hyz]
          · subst hyz
            simp [charsLeB, hxy]
          · simp [charsLeB, hyz, asymm hyz] at h₂
        · subst hxy
          simp only [charsLeB, lt_irrefl, if_false] at h₁
          rcases lt_trichotomy x z with hxz | hxz | hxz
          · simp [charsLeB, hxz]
          · subst hxz
            simp only [charsLeB, lt_irrefl, if_false]
            rcases lt_trichotomy x x with h | h | h
            · exact absurd h (lt_irrefl x)
            · simp only [charsLeB, lt_irrefl, if_false] at h₂
              exact ih ys zs h₁ h₂
            · exact absurd h (lt_irrefl x)
          · simp [charsLeB, hxz, asymm hxz] at h₂
        · simp [charsLeB, hxy, asymm hxy] at h₁

theorem charsLeB_total (a b : List Char) : charsLeB a b = true ∨ charsLeB b a = true := by
  induction a generalizing b with
  | nil => left; rfl
  | cons x xs ih =>
    cases b with
    | nil => right; rfl
    | cons y ys =>
      rcases lt_trichotomy x y with h | h | h
      · left; simp [charsLeB, h]
      · subst h
        rcases ih ys with h' | h'
        · left; simp [charsLeB, lt_irrefl, h']
        · right; simp [charsLeB, lt_irrefl, h']
      · right; simp [charsLeB, h]

theorem charsLeB_antisymm (a b : List Char) (h₁ : charsLeB a b = true)
    (h₂ : charsLeB b a = true) : a = b := by
  induction a generalizing b with
  | nil =>
    cases b with
    | nil => rfl
    | cons y ys => simp [charsLeB] at h₂
  | cons x xs ih =>
    cases b with
    | nil => simp [charsLeB] at h₁
    | cons y ys =>
      rcases lt_trichotomy x y with h | h | h
      · simp [charsLeB, h, asymm h] at h₂
      · subst h
        simp only [charsLeB, lt_irrefl, if_false] at h₁ h₂
        rw [ih ys h₁ h₂]
      · simp [charsLeB, h, asymm h] at h₁

theorem strLeB_trans (a b c : String) (h₁ : strLeB a b = true) (h₂ : strLeB b c = true) :
    strLeB a c = true := charsLeB_trans a.data b.data c.data h₁ h₂

theorem strLeB_total (a b : String) : strLeB a b = true ∨ strLeB b a = true :=
  charsLeB_total a.data b.data

theorem strLeB_antisymm (a b : String) (h₁ : strLeB a b = true)
    (h₂ : strLeB b a = true) : a = b := by
  cases a; cases b
  exact congrArg String.mk (charsLeB_antisymm _ _ h₁ h₂)

theorem pairwise_isortLe {α : Type} (le : α → α → Bool)
    (htrans : ∀ a b c, le a b = true → le b c = true → le a c = true)
    (htot : ∀ a b, le a b = true ∨ le b a = true)
    (l : List α) : (isortLe le l).Pairwise (fun a b => le a b = true) := by
  induction l with
  | nil => simp [isortLe]
  | cons x xs ih => exact pairwise_insertLe le htrans htot x (isortLe le xs) ih

theorem catUnion_comm (xs ys : List String) : catUnion xs ys = catUnion ys xs := by
  have hperm : List.Perm (catUnion xs ys) (catUnion ys xs) := by
    refine ((isortLe_perm strLeB ((xs ++ ys).dedup)).trans ?_).trans
      (isortLe_perm strLeB ((ys ++ xs).dedup)).symm
    exact (List.perm_append_comm).dedup
  have hs₁ : (catUnion xs ys).Pairwise (fun a b : String => strLeB a b = true) :=
    pairwise_isortLe strLeB strLeB_trans strLeB_total _
  have hs₂ : (catUnion ys xs).Pairwise (fun a b : String => strLeB a b = true) :=
    pairwise_isortLe strLeB strLeB_trans strLeB_total _
  haveI : IsAntisymm String (fun a b : String => strLeB a b = true) :=
    ⟨fun a b h1 h2 => strLeB_antisymm a b h1 h2⟩
  exact List.eq_of_perm_of_sorted hperm hs₁ hs₂

theorem jensenshannon_comm (p q : List ℝ) : jensenshannon p q = jensenshannon q p := by
  unfold jensenshannon
  rw [midVec_comm (normalize q) (normalize p)]
  congr 1
  ring

theorem catDistOne_comm (xs ys : List String) : catDistOne xs ys = catDistOne ys xs := by
  unfold catDistOne
  rw [catUnion_comm ys xs]
  exact jensenshannon_comm _ _

theorem numDistOne_comm (xs ys : List ℚ) : numDistOne xs ys = numDistOne ys xs := by
  unfold numDistOne
  rw [min_comm (minD (ys.map (fun q => (q : ℝ)))) (minD (xs.map (fun q => (q : ℝ)))),
      max_comm (maxD (ys.map (fun q => (q : ℝ)))) (maxD (xs.map (fun q => (q : ℝ))))]
  exact jensenshannon_comm _ _

theorem catLoop_swap_ok (d : Detector) (cs : List String) (l₁ l₂ : List (String × ℝ))
    (h₁ : catLoop d cs = .ok l₁) (h₂ : catLoop (swapDetector d) cs = .ok l₂) :
    l₁ = l₂ := by
  induction cs generalizing l₁ l₂ with
  | nil =>
    simp only [catLoop, Except.ok.injEq] at h₁ h₂
    rw [← h₁, ← h₂]
  | cons c cs ih =>
    simp only [catLoop] at h₁ h₂
    split at h₁
    · exact Except.noConfusion h₁
    · split at h₁
      · exact Except.noConfusion h₁
      · split at h₂
        · exact Except.noConfusion h₂
        · split at h₂
          · exact Except.noConfusion h₂
          · cases hr₁ : catLoop d cs with
            | error e =>
              rw [hr₁, exceptBind_error] at h₁
              exact Except.noConfusion h₁
            | ok r₁ =>
              cases hr₂ : catLoop (swapDetector d) cs with
              | error e =>
                rw [hr₂, exceptBind_error] at h₂
                exact Except.noConfusion h₂
              | ok r₂ =>
                rw [hr₁, exceptBind_ok] at h₁
                rw [hr₂, exceptBind_ok] at h₂
                simp only [Except.ok.injEq] at h₁ h₂
                rw [← h₁, ← h₂, ih r₁ r₂ hr₁ hr₂]
                exact congrArg (fun z => (c, z) :: r₂)
                  (catDistOne_comm (d.catPrior c) (d.catPost c))

theorem numLoop_swap_ok (d : Detector) (cs : List String) (l₁ l₂ : List (String × ℝ))
    (h₁ : numLoop d cs = .ok l₁) (h₂ : numLoop (swapDetector d) cs = .ok l₂) :
    l₁ = l₂ := by
  induction cs generalizing l₁ l₂ with
  | nil =>
    simp only [numLoop, Except.ok.injEq] at h₁ h₂
    rw [← h₁, ← h₂]
  | cons c cs ih =>
    simp only [numLoop] at h₁ h₂
    split at h₁
    · exact Except.noConfusion h₁
    · split at h₁
      · exact Except.noConfusion h₁
      · split at h₂
        · exact Except.noConfusion h₂
        · split at h₂
          · exact Except.noConfusion h₂
          · cases hr₁ : numLoop d cs with
            | error e =>
              rw [hr₁, exceptBind_error] at h₁
              exact Except.noConfusion h₁
            | ok r₁ =>
              cases hr₂ : numLoop (swapDetector d) cs with
              | error e =>
                rw [hr₂, exceptBind_error] at h₂
                exact Except.noConfusion h₂
              | ok r₂ =>
                rw [hr₁, exceptBind_ok] at h₁
                rw [hr₂, exceptBind_ok] at h₂
                simp only [Except.ok.injEq] at h₁ h₂
                rw [← h₁, ← h₂, ih r₁ r₂ hr₁ hr₂]
                exact congrArg (fun z => (c, z) :: r₂)
                  (numDistOne_comm (d.numPrior c) (d.numPost c))

end Drift

/-- C10: drift is symmetric.  The per-column categorical and numeric
Jensen-Shannon distances are invariant under swapping the prior and post
datasets, and whenever calculate_drift succeeds on a detector and on the
swapped detector, the two reports are identical. -/
theorem C10_drift_symmetric :
    (∀ xs ys : List String, Drift.catDistOne xs ys = Drift.catDistOne ys xs) ∧
    (∀ xs ys : List ℚ, Drift.numDistOne xs ys = Drift.numDistOne ys xs) ∧
    (∀ (d : Drift.Detector) (r₁ r₂ : Drift.DriftReport),
      Drift.calculate_drift d = .ok r₁ →
      Drift.calculate_drift (Drift.swapDetector d) = .ok r₂ → r₁ = r₂) := by
  refine ⟨Drift.catDistOne_comm, Drift.numDistOne_comm, ?_⟩
  intro d r₁ r₂ h₁ h₂
  have hcols : (Drift.swapDetector d).catCols = d.catCols := rfl
  have hncols : (Drift.swapDetector d).numCols = d.numCols := rfl
  cases hc₁ : Drift.catLoop d d.catCols with
  | error e =>
    rw [Drift.calculate_drift, hc₁, Drift.exceptBind_error] at h₁
    exact Except.noConfusion h₁
  | ok cat₁ =>
    cases hn₁ : Drift.numLoop d d.numCols with
    | error e =>
      rw [Drift.calculate_drift, hc₁, Drift.exceptBind_ok, hn₁,
        Drift.exceptBind_error] at h₁
      exact Except.noConfusion h₁
    | ok num₁ =>
      cases hc₂ : Drift.catLoop (Drift.swapDetector d) d.catCols with
      | error e =>
        rw [Drift.calculate_drift, hcols, hc₂, Drift.exceptBind_error] at h₂
        exact Except.noConfusion h₂
      | ok cat₂ =>
        cases hn₂ : Drift.numLoop (Drift.swapDetector d) d.numCols with
        | error e =>
          rw [Drift.calculate_drift, hcols, hc₂, Drift.exceptBind_ok, hncols,
            hn₂, Drift.exceptBind_error] at h₂
          exact Except.noConfusion h₂
        | ok num₂ =>
          rw [Drift.calculate_drift, hc₁, Drift.exceptBind_ok, hn₁,
            Drift.exceptBind_ok] at h₁
          rw [Drift.calculate_drift, hcols, hc₂, Drift.exceptBind_ok, hncols,
            hn₂, Drift.exceptBind_ok] at h₂
          cases h₁
          cases h₂
          rw [Drift.catLoop_swap_ok d d.catCols cat₁ cat₂ hc₁ hc₂,
            Drift.numLoop_swap_ok d d.numCols num₁ num₂ hn₁ hn₂]

/-- Concrete detector for the C10 witness: one categorical column, values
"a" on the prior side and "b" on the post side. -/
def dSym : Drift.Detector :=
  ⟨["c"], [], fun _ => ["a"], fun _ => ["b"], fun _ => [], fun _ => []⟩

/-- C10 witness: instantiating the symmetry theorem on dSym. -/
theorem C10_witness :
    ({ categorical := Drift.packRes [("c", Drift.catDistOne ["a"] ["b"])],
       numerical := Drift.packRes [] } : Drift.DriftReport)
    = { categorical := Drift.packRes [("c", Drift.catDistOne ["b"] ["a"])],
        numerical := Drift.packRes [] } :=
  C10_drift_symmetric.2.2 dSym
    { categorical := Drift.packRes [("c", Drift.catDistOne ["a"] ["b"])],
      numerical := Drift.packRes [] }
    { categorical := Drift.packRes [("c", Drift.catDistOne ["b"] ["a"])],
      numerical := Drift.packRes [] }
    rfl rfl

namespace Drift

theorem catLoop_ok_of_nonempty (d : Detector) (cs : List String)
    (h : ∀ c ∈ cs, d.catPrior c ≠ [] ∧ d.catPost c ≠ []) :
    ∃ l, catLoop d cs = .ok l := by
  induction cs with
  | nil => exact ⟨[], rfl⟩
  | cons c cs ih =>
    obtain ⟨l, hl⟩ := ih (fun c' hc' => h c' (List.mem_cons_of_mem _ hc'))
    refine ⟨(c, catDistOne (d.catPrior c) (d.catPost c)) :: l, ?_⟩
    have h1 : ¬((d.catPrior c).isEmpty = true) := by
      simpa using (h c (by simp)).1
    have h2 : ¬((d.catPost c).isEmpty = true) := by
      simpa using (h c (by simp)).2
    simp only [catLoop]
    rw [if_neg h1, if_neg h2, hl, exceptBind_ok]

theorem numLoop_first_insufficient (d : Detector) (cs : List String)
    (h : ∃ c ∈ cs, distinctCount (d.numPrior c) < 2 ∨ distinctCount (d.numPost c) < 2) :
    ∃ c ∈ cs, (distinctCount (d.numPrior c) < 2 ∨ distinctCount (d.numPost c) < 2) ∧
      numLoop d cs = .error (.insufficientData c) := by
  induction cs with
  | nil => simp at h
  | cons c cs ih =>
    by_cases h1 : distinctCount (d.numPrior c) < 2
    · refine ⟨c, by simp, Or.inl h1, ?_⟩
      simp only [numLoop]
      rw [if_pos h1]
    · by_cases h2 : distinctCount (d.numPost c) < 2
      · refine ⟨c, by simp, Or.inr h2, ?_⟩
        simp only [numLoop]
        rw [if_neg h1, if_pos h2]
      · have hcs : ∃ c' ∈ cs,
            distinctCount (d.numPrior c') < 2 ∨ distinctCount (d.numPost c') < 2 := by
          rcases h with ⟨c', hc', hbad⟩
          rcases List.mem_cons.mp hc' with rfl | hc'
          · rcases hbad with hb | hb
            · exact absurd hb h1
            · exact absurd hb h2
          · exact ⟨c', hc', hbad⟩
        obtain ⟨c', hc', hbad', herr⟩ := ih hcs
        refine ⟨c', List.mem_cons_of_mem _ hc', hbad', ?_⟩
        simp only [numLoop]
        rw [if_neg h1, if_neg h2, herr, exceptBind_error]

end Drift

/-- Detector with two empty datasets, one categorical and one numeric
column: the C3 counterexample input. -/
def dC3empty : Drift.Detector :=
  ⟨["c"], ["n"], fun _ => [], fun _ => [], fun _ => [], fun _ => []⟩

/-- C3 counterexample: on a detector whose numeric column n has fewer than 2
distinct values but whose datasets are empty, calculate_drift fails in the
categorical loop first, with the pandas KeyError of line 161, not with the
insufficient-data (gaussian_kde) error naming n as the claim requires. -/
theorem C3_counterexample :
    Drift.calculate_drift dC3empty = .error (Drift.DriftErr.keyError "prior") ∧
    Drift.DriftErr.keyError "prior" ≠ Drift.DriftErr.insufficientData "n" := by
  exact ⟨rfl, by decide⟩

/-- C3 (amended): provided the categorical pass can complete (every
categorical column has at least one prior row and one post row), a detector
whose numeric column set contains a column with fewer than 2 distinct
values in either dataset makes calculate_drift fail with the
insufficient-data error identifying such a column (the first one, in input
column order), and no report is returned. -/
theorem C3_insufficient_numeric_column (d : Drift.Detector)
    (hcat : ∀ c ∈ d.catCols, d.catPrior c ≠ [] ∧ d.catPost c ≠ [])
    (hnum : ∃ c ∈ d.numCols,
      Drift.distinctCount (d.numPrior c) < 2 ∨ Drift.distinctCount (d.numPost c) < 2) :
    ∃ c ∈ d.numCols,
      (Drift.distinctCount (d.numPrior c) < 2 ∨ Drift.distinctCount (d.numPost c) < 2) ∧
      Drift.calculate_drift d = .error (Drift.DriftErr.insufficientData c) := by
  obtain ⟨l, hl⟩ := Drift.catLoop_ok_of_nonempty d d.catCols hcat
  obtain ⟨c, hc, hbad, herr⟩ := Drift.numLoop_first_insufficient d d.numCols hnum
  refine ⟨c, hc, hbad, ?_⟩
  rw [Drift.calculate_drift, hl, Drift.exceptBind_ok, herr, Drift.exceptBind_error]

/-- Concrete input for the C3 witness: nonempty categorical data and a
numeric column with constant prior values. -/
def dC3w : Drift.Detector :=
  ⟨["c"], ["n"], fun _ => ["a"], fun _ => ["b"], fun _ => [1, 1], fun _ => [2, 3]⟩

/-- C3 witness: the amended theorem applied to dC3w. -/
theorem C3_witness :
    ∃ c ∈ dC3w.numCols,
      (Drift.distinctCount (dC3w.numPrior c) < 2 ∨ Drift.distinctCount (dC3w.numPost c) < 2) ∧
      Drift.calculate_drift dC3w = .error (Drift.DriftErr.insufficientData c) :=
  C3_insufficient_numeric_column dC3w (by decide) ⟨"n", by decide, Or.inl (by decide)⟩

namespace Drift

theorem scoreLeB_trans (a b c : String × ℝ) (h₁ : scoreLeB a b = true)
    (h₂ : scoreLeB b c = true) : scoreLeB a c = true := by
  unfold scoreLeB at h₁ h₂ ⊢
  exact decide_eq_true (le_trans (of_decide_eq_true h₂) (of_decide_eq_true h₁))

theorem scoreLeB_total (a b : String × ℝ) : scoreLeB a b = true ∨ scoreLeB b a = true := by
  unfold scoreLeB
  rcases le_total a.2 b.2 with h | h
  · exact Or.inr (decide_eq_true h)
  · exact Or.inl (decide_eq_true h)

theorem sortDescStable_perm (l : List (String × ℝ)) :
    List.Perm (sortDescStable l) l := isortLe_perm scoreLeB l

theorem sortDescStable_sorted (l : List (String × ℝ)) :
    (sortDescStable l).Pairwise (fun a b => b.2 ≤ a.2) :=
  (pairwise_isortLe scoreLeB scoreLeB_trans scoreLeB_total l).imp
    (fun h => of_decide_eq_true h)

theorem sortDescStable_stable (a b : String × ℝ) (l : List (String × ℝ))
    (hsub : List.Sublist [a, b] l) (hv : a.2 = b.2) :
    List.Sublist [a, b] (sortDescStable l) := by
  classical
  let P : String × ℝ → Bool := fun p => decide (p.2 = a.2)
  have hPa : P a = true := decide_eq_true rfl
  have hPb : P b = true := decide_eq_true hv.symm
  have hPle : ∀ x y : String × ℝ, P x = true → P y = true → scoreLeB x y = true := by
    intro x y hx hy
    have hx' : x.2 = a.2 := of_decide_eq_true hx
    have hy' : y.2 = a.2 := of_decide_eq_true hy
    exact decide_eq_true (le_of_eq (hy'.trans hx'.symm))
  have hab : [a, b].filter P = [a, b] := by
    simp [List.filter, hPa, hPb]
  have h1 : List.Sublist ([a, b].filter P) (l.filter P) := hsub.filter P
  have h2 : l.filter P = (sortDescStable l).filter P :=
    (filter_isortLe scoreLeB P hPle l).symm
  have h3 : List.Sublist ((sortDescStable l).filter P) (sortDescStable l) :=
    List.filter_sublist _
  rw [hab] at h1
  rw [h2] at h1
  exact h1.trans h3

end Drift

/-- Detector with one categorical column and no numeric columns: on this
input calculate_drift leaves the numerical side as the empty dict. -/
def dC7c : Drift.Detector :=
  ⟨["k"], [], fun _ => ["x"], fun _ => ["x"], fun _ => [], fun _ => []⟩

/-- C7 counterexample: with zero numeric columns the numerical side of the
report is the untouched empty accumulation dict (lines 190-191 only replace
a dict by a sorted list when it is nonempty), and the empty dict is not the
empty list, contradicting the claim that a role set with zero columns
yields an empty list for that side. -/
theorem C7_counterexample :
    Drift.calculate_drift dC7c =
      .ok { categorical := Drift.packRes [("k", Drift.catDistOne ["x"] ["x"])],
            numerical := Drift.DriftVal.asDict [] } ∧
    Drift.DriftVal.asDict ([] : List (String × ℝ)) ≠ Drift.DriftVal.asList [] :=
  ⟨rfl, fun h => Drift.DriftVal.noConfusion h⟩

/-- C7 (amended): calculate_drift returns, per side, the accumulated
(column, distance) pairs in input column order packed as follows: a side
with zero columns is returned as the untouched empty dict (not a list); a
nonempty side is the stable descending sort of its pairs - a permutation of
the in-order pairs, sorted descending by distance, and any two pairs with
equal distance keep their input relative order. -/
theorem C7_report_shape :
    (Drift.packRes ([] : List (String × ℝ)) = Drift.DriftVal.asDict []) ∧
    (∀ l : List (String × ℝ), l ≠ [] →
      Drift.packRes l = Drift.DriftVal.asList (Drift.sortDescStable l)) ∧
    (∀ l : List (String × ℝ), List.Perm (Drift.sortDescStable l) l) ∧
    (∀ l : List (String × ℝ), (Drift.sortDescStable l).Pairwise (fun a b => b.2 ≤ a.2)) ∧
    (∀ (a b : String × ℝ) (l : List (String × ℝ)),
      List.Sublist [a, b] l → a.2 = b.2 → List.Sublist [a, b] (Drift.sortDescStable l)) ∧
    (∀ (d : Drift.Detector) (cat num : List (String × ℝ)),
      Drift.catLoop d d.catCols = .ok cat → Drift.numLoop d d.numCols = .ok num →
      Drift.calculate_drift d =
        .ok { categorical := Drift.packRes cat, numerical := Drift.packRes num }) := by
  refine ⟨rfl, ?_, Drift.sortDescStable_perm, Drift.sortDescStable_sorted,
    Drift.sortDescStable_stable, ?_⟩
  · intro l hl
    unfold Drift.packRes
    rw [if_neg]
    simpa using hl
  · intro d cat num hcat hnum
    rw [Drift.calculate_drift, hcat, Drift.exceptBind_ok, hnum, Drift.exceptBind_ok]

/-- Detector for the C7 witness: one categorical column, no numeric
columns. -/
def dC7w : Drift.Detector :=
  ⟨["k"], [], fun _ => ["x", "y"], fun _ => ["y"], fun _ => [], fun _ => []⟩

/-- C7 witness: the amended report-shape theorem applied at concrete
inputs. -/
theorem C7_witness :
    Drift.calculate_drift dC7w =
      .ok { categorical := Drift.packRes [("k", Drift.catDistOne ["x", "y"] ["y"])],
            numerical := Drift.packRes [] } ∧
    Drift.packRes [("k", Drift.catDistOne ["x", "y"] ["y"])] =
      Drift.DriftVal.asList (Drift.sortDescStable [("k", Drift.catDistOne ["x", "y"] ["y"])]) :=
  ⟨C7_report_shape.2.2.2.2.2 dC7w _ _ rfl rfl,
   C7_report_shape.2.1 _ (by simp)⟩

/-! ## Shared cell values and Python-level errors for the ML pipeline -/

/-- A dataframe cell after the constructor's normalisation: a string (from
astype(str) on categorical columns), an exact numeric value (floats are
modelled by rationals), or a missing value (NaN). -/
inductive Cell where
  | str : String → Cell
  | num : ℚ → Cell
  | nan : Cell
deriving DecidableEq

/-- Python-level exceptions surfaced by the embedded pipeline. -/
inductive PyErr where
  | attributeError : String → PyErr
  | assertionError : String → PyErr
  | unboundLocalError : String → PyErr
  | valueError : String → PyErr
  | keyError : String → PyErr
deriving DecidableEq

/-- str() of a cell, as used by astype(str): numbers are rendered by their
decimal representation (the exact rendering of floats is claim-irrelevant)
and missing values render as the string nan. -/
def cellToStr : Cell → String
  | .str s => s
  | .num q => toString q
  | .nan => "nan"

/-- Digit value of a character, if it is a decimal digit. -/
def charDigit? (c : Char) : Option ℕ :=
  if 48 ≤ c.toNat ∧ c.toNat ≤ 57 then some (c.toNat - 48) else none

/-- Accumulating decimal parse of a digit string. -/
def parseNatAux : List Char → ℕ → Option ℕ
  | [], acc => some acc
  | c :: cs, acc =>
    match charDigit? c with
    | some d => parseNatAux cs (acc * 10 + d)
    | none => none

/-- Decimal parse of a nonempty digit string. -/
def parseDigits (cs : List Char) : Option ℕ :=
  if cs.isEmpty then none else parseNatAux cs 0

/-- float(s) on a string cell, conservatively modelled for integer literals
only (a non-numeric string raises ValueError in Python and errors here;
fractional literals are not needed by any claim). -/
def parseFloatStr (s : String) : Option ℚ :=
  match s.data with
  | '-' :: cs => (parseDigits cs).map (fun n => -(n : ℚ))
  | cs => (parseDigits cs).map (fun n => (n : ℚ))

/-- astype(float) on one cell: numbers and NaN pass through, strings must
parse as numerals. -/
def astypeFloatCell : Cell → Except PyErr Cell
  | .num q => .ok (.num q)
  | .nan => .ok .nan
  | .str s =>
    match parseFloatStr s with
    | some q => .ok (.num q)
    | none => .error (.valueError "could not convert string to float")

/-! ## Dataset normaliser (constructor), claims about schema enforcement

Embedding of DataDriftDetector.__init__ (source lines 65-118).  A raw input
dataframe is a schema - a list of (column name, dtype string) pairs - plus
rows of cells in schema order.  The comparison at line 74 of two pandas
Index objects raises ValueError when their lengths differ, before the
assert can fail; with equal lengths the asserts at lines 74-77 fail on any
name or dtype disagreement.  Only then are roles inferred and the datasets
coerced. -/

namespace InitM

/-- Raw input dataframe. -/
structure RawDF where
  schema : List (String × String)
  rows : List (List Cell)
deriving DecidableEq

/-- Failures of the constructor.  The first three arise from schema
disagreement: valueErrorLength from comparing different-length column
Indexes (pandas raises ValueError inside line 74's comparison),
assertNames and assertDtypes from the asserts at lines 74-77. -/
inductive InitErr where
  | valueErrorLength : InitErr
  | assertNames : InitErr
  | assertDtypes : InitErr
  | keyErrorRole : String → InitErr
  | valueErrorAstype : String → InitErr
deriving DecidableEq

/-- Does this constructor failure signal a schema mismatch between the two
inputs (the spec's SchemaMismatchError)? -/
def isSchemaMismatch : InitErr → Bool
  | .valueErrorLength => true
  | .assertNames => true
  | .assertDtypes => true
  | _ => false

/-- Numeric storage dtypes recognised by role inference (line 104). -/
def num_types : List String := ["float64", "float32", "int32", "int64", "uint8"]

/-- Categorical role inference (lines 86-94): object-dtype columns. -/
def inferCats (schema : List (String × String)) : List String :=
  (schema.filter (fun p => p.2 == "object")).map Prod.fst

/-- Numeric role inference (lines 103-109): columns of a recognised numeric
dtype. -/
def inferNums (schema : List (String × String)) : List String :=
  (schema.filter (fun p => num_types.contains p.2)).map Prod.fst

/-- astype(str) on the named columns (lines 96-101): their cells are
stringified and their dtype becomes object. -/
def astypeStrCols (df : RawDF) (cols : List String) : RawDF :=
  { schema := df.schema.map (fun p => if p.1 ∈ cols then (p.1, "object") else p),
    rows := df.rows.map (fun r =>
      (df.schema.zip r).map (fun pc =>
        if pc.1.1 ∈ cols then Cell.str (cellToStr pc.2) else pc.2)) }

/-- astype(float) on the named columns (lines 111-112): their cells must
coerce, and their dtype becomes float64. -/
def astypeFloatCols (df : RawDF) (cols : List String) : Except InitErr RawDF := do
  let rows ← df.rows.mapM (fun r =>
    (df.schema.zip r).mapM (fun pc =>
      if pc.1.1 ∈ cols then
        match astypeFloatCell pc.2 with
        | .ok c => Except.ok c
        | .error _ => Except.error (InitErr.valueErrorAstype pc.1.1)
      else Except.ok pc.2))
  .ok { schema := df.schema.map (fun p => if p.1 ∈ cols then (p.1, "float64") else p),
        rows := rows }

/-- Normalised constructor result (lines 114-118). -/
structure Detector0 where
  categorical_columns : List String
  numeric_columns : List String
  df_prior : RawDF
  df_post : RawDF
deriving DecidableEq

/-- DataDriftDetector.__init__ (lines 65-118): schema checks, role
inference or override, and coercion of both datasets; selection with an
unknown column name raises KeyError (modelling the pandas selection at
lines 96-101 and 111-112). -/
def DataDriftDetector (df_prior df_post : RawDF)
    (categorical_columns numeric_columns : Option (List String)) :
    Except InitErr Detector0 :=
  if df_prior.schema.length ≠ df_post.schema.length then .error .valueErrorLength
  else if df_prior.schema.map Prod.fst ≠ df_post.schema.map Prod.fst then
    .error .assertNames
  else if df_prior.schema.map Prod.snd ≠ df_post.schema.map Prod.snd then
    .error .assertDtypes
  else
    let cats := categorical_columns.getD (inferCats df_prior.schema)
    match cats.find? (fun c => !(df_prior.schema.map Prod.fst).contains c) with
    | some c => .error (.keyErrorRole c)
    | none =>
      let prior1 := astypeStrCols df_prior cats
      let post1 := astypeStrCols df_post cats
      let nums := numeric_columns.getD (inferNums prior1.schema)
      match nums.find? (fun c => !(df_prior.schema.map Prod.fst).contains c) with
      | some c => .error (.keyErrorRole c)
      | none => do
        let prior2 ← astypeFloatCols prior1 nums
        let post2 ← astypeFloatCols post1 nums
        .ok { categorical_columns := cats, numeric_columns := nums,
              df_prior := prior2, df_post := post2 }

end InitM

/-- C6: constructing a detector from two dataframes whose column names or
dtypes differ always fails with a schema-mismatch error (the ValueError
from comparing different-length Indexes, or one of the two schema asserts)
and never partially succeeds: no detector value is produced. -/
theorem C6_schema_mismatch (p q : InitM.RawDF)
    (copt nopt : Option (List String))
    (h : p.schema.map Prod.fst ≠ q.schema.map Prod.fst ∨
         p.schema.map Prod.snd ≠ q.schema.map Prod.snd) :
    ∃ e, InitM.DataDriftDetector p q copt nopt = .error e ∧
      InitM.isSchemaMismatch e = true := by
  by_cases hlen : p.schema.length = q.schema.length
  · by_cases hnames : p.schema.map Prod.fst = q.schema.map Prod.fst
    · have hdts : p.schema.map Prod.snd ≠ q.schema.map Prod.snd := by
        rcases h with h | h
        · exact absurd hnames h
        · exact h
      refine ⟨.assertDtypes, ?_, rfl⟩
      unfold InitM.DataDriftDetector
      rw [if_neg (by simpa using hlen), if_neg (by simpa using hnames),
        if_pos hdts]
    · refine ⟨.assertNames, ?_, rfl⟩
      unfold InitM.DataDriftDetector
      rw [if_neg (by simpa using hlen), if_pos hnames]
  · refine ⟨.valueErrorLength, ?_, rfl⟩
    unfold InitM.DataDriftDetector
    rw [if_pos hlen]

/-- C6 witness: same single column name, differing dtypes. -/
theorem C6_witness :
    ∃ e, InitM.DataDriftDetector
        { schema := [("a", "int64")], rows := [] }
        { schema := [("a", "float64")], rows := [] } none none = .error e ∧
      InitM.isSchemaMismatch e = true :=
  C6_schema_mismatch _ _ none none (Or.inr (by decide))

/-! ## Split allocator: shuffle and split of the post dataset -/

namespace MLPrep

/-- Reordering of rows by a permutation of indexes, modelling the row order
that sklearn.utils' shuffle draws from the global numpy random source. -/
def applyPerm {α : Type} (perm : List ℕ) (xs : List α) : List α :=
  perm.filterMap (fun i => xs[i]?)

/-- Lines 550-554 of _ml_data_prep: shuffle the post dataframe and split it
at int(len * train_size).  shuffle is called at line 550 WITHOUT
random_state, so the permutation comes from the ambient global random
source (the perm argument); the caller-supplied random_state (line 486) is
in scope but unused here, hence the unused first argument. -/
def mlSplitPost {α : Type} (random_state : Option ℤ) (perm : List ℕ)
    (rows : List α) (train_size : ℚ) : List α × List α :=
  ((applyPerm perm rows).take (⌊train_size * ((applyPerm perm rows).length : ℚ)⌋).toNat,
   (applyPerm perm rows).drop (⌊train_size * ((applyPerm perm rows).length : ℚ)⌋).toNat)

end MLPrep

/-- C2 counterexample: two runs on identical inputs with the same
random_state but different ambient shuffle draws produce different post
train/test partitions, refuting the claim that the shuffle-and-split is
driven by the caller-supplied seed (line 550 does not pass random_state to
shuffle). -/
theorem C2_counterexample :
    MLPrep.mlSplitPost (some 42) [0, 1] [(0 : ℕ), 1] (7/10)
      ≠ MLPrep.mlSplitPost (some 42) [1, 0] [(0 : ℕ), 1] (7/10) := by
  have hap : MLPrep.applyPerm [0, 1] [(0 : ℕ), 1] = [0, 1] := rfl
  have hap2 : MLPrep.applyPerm [1, 0] [(0 : ℕ), 1] = [1, 0] := rfl
  have hn : (⌊(7 : ℚ)/10 * ((([0, 1] : List ℕ)).length : ℚ)⌋).toNat = 1 := by
    norm_num
  have hn2 : (⌊(7 : ℚ)/10 * ((([1, 0] : List ℕ)).length : ℚ)⌋).toNat = 1 := by
    norm_num
  have e1 : MLPrep.mlSplitPost (some 42) [0, 1] [(0 : ℕ), 1] (7/10) = ([0], [1]) := by
    unfold MLPrep.mlSplitPost
    rw [hap, hn]
    rfl
  have e2 : MLPrep.mlSplitPost (some 42) [1, 0] [(0 : ℕ), 1] (7/10) = ([1], [0]) := by
    unfold MLPrep.mlSplitPost
    rw [hap2, hn2]
    rfl
  intro h
  rw [e1, e2] at h
  exact absurd h (by decide)

/-- C2 (amended): the post train/test partition is a deterministic function
of the ambient shuffle permutation and the inputs - the leading
int(len * train_size) shuffled rows train, the rest test - and it does not
depend on the caller-supplied random_state at all, so two runs agree
exactly when their ambient shuffle draws agree.  (random_state does reach
the encoders, the search and the models, lines 588-590 and 632-678, but
not this split.) -/
theorem C2_split_seed_independent {α : Type} (rs₁ rs₂ : Option ℤ) (perm : List ℕ)
    (rows : List α) (ts : ℚ) :
    MLPrep.mlSplitPost rs₁ perm rows ts = MLPrep.mlSplitPost rs₂ perm rows ts ∧
    (MLPrep.mlSplitPost rs₁ perm rows ts).1
      = (MLPrep.applyPerm perm rows).take
          (⌊ts * ((MLPrep.applyPerm perm rows).length : ℚ)⌋).toNat ∧
    (MLPrep.mlSplitPost rs₁ perm rows ts).1 ++ (MLPrep.mlSplitPost rs₁ perm rows ts).2
      = MLPrep.applyPerm perm rows :=
  ⟨rfl, rfl, List.take_append_drop _ _⟩

/-! ## compare_ml_efficacy dispatch and classifier evaluation -/

namespace MLRun

/-- Dispatch skeleton of compare_ml_efficacy (lines 469-528) at report
granularity: the assert that target_column is one of df_prior's columns
(line 471), the branch on the role lists (lines 520-527), and the final
return of self.ml_report (line 528).  The classifier and regressor
pipelines, which would set self.ml_report, are abstracted as the outcome
arguments: each is the pair (returned value, ml_report attribute left
behind). -/
def compare_ml_efficacy_dispatch {R : Type} (dfPriorCols : List String)
    (catCols numCols : List String) (stored : Option R)
    (clsOutcome regOutcome : Except PyErr R × Option R) (target : String) :
    Except PyErr R × Option R :=
  if target ∉ dfPriorCols then
    (.error (.assertionError "target_column does not exist in df_prior"), stored)
  else if target ∈ catCols then clsOutcome
  else if target ∈ numCols then regOutcome
  else
    match stored with
    | some r => (.ok r, some r)
    | none => (.error (.attributeError "ml_report"), none)

/-- _eval_classifier as written (lines 724-802): its second statement (line
736) reads the local variable y_test in y_test.columns, but y_test is a
local first bound at line 749 (line 735 binds y_test_ instead - a slip,
y_test_ is never used afterwards), so CPython raises UnboundLocalError on
every call, before any metric or any report row is computed. -/
def eval_classifier (y_test y_pred_prior y_pred_post : List String) :
    Except PyErr (List (String × String)) :=
  .error (.unboundLocalError "y_test")

/-- Class labels after the joint one-hot expansion of lines 743-745: the
sorted union of predicted-prior, predicted-post and true labels (pandas
get_dummies sorts the category values). -/
def classLabels (y_test y_pred_prior y_pred_post : List String) : List String :=
  isortLe Drift.strLeB ((y_pred_prior ++ y_pred_post ++ y_test).dedup)

/-- Class indexes evaluated by the loop at lines 756-762: position 1 only
for two joint classes, every position otherwise. -/
def evalIters (k : ℕ) : List ℕ := if k = 2 then [1] else List.range k

/-- Modelled from the spec: the evidently intended _eval_classifier, with
the line-735 slip repaired (y_test bound to DataFrame(self.y_test)).  Each
evaluated class contributes a (class, Prior) and a (class, Post) row
(lines 784-800); the metric values are elided, C1 being about the report
rows. -/
def eval_classifier_fixed (y_test y_pred_prior y_pred_post : List String) :
    List (String × String) :=
  (evalIters (classLabels y_test y_pred_prior y_pred_post).length).flatMap
    (fun i => [((classLabels y_test y_pred_prior y_pred_post).getD i "", "Prior"),
               ((classLabels y_test y_pred_prior y_pred_post).getD i "", "Post")])

theorem flatMap_pair_length {α β : Type} (l : List α) (f g : α → β) :
    (l.flatMap (fun i => [f i, g i])).length = 2 * l.length := by
  induction l with
  | nil => rfl
  | cons x xs ih =>
    simp only [List.flatMap_cons, List.length_append, ih, List.length_cons,
      List.length_nil]
    ring

end MLRun

/-- C9: when the target column exists in the dataframes but belongs to
neither role list, compare_ml_efficacy trains no model and raises no
role-related error - the result is independent of the classifier and
regressor outcomes - and after data preparation it returns the previously
stored ml_report, or fails with the missing-attribute error on a first
call. -/
theorem C9_unclassified_target {R : Type} (dfPriorCols catCols numCols : List String)
    (stored : Option R) (cls reg : Except PyErr R × Option R) (target : String)
    (hdf : target ∈ dfPriorCols) (hcat : target ∉ catCols) (hnum : target ∉ numCols) :
    MLRun.compare_ml_efficacy_dispatch dfPriorCols catCols numCols stored cls reg target
      = match stored with
        | some r => (.ok r, some r)
        | none => (.error (.attributeError "ml_report"), none) := by
  unfold MLRun.compare_ml_efficacy_dispatch
  rw [if_neg (fun hn => hn hdf), if_neg hcat, if_neg hnum]

/-- C9 witness: target t is a dataframe column but in neither role list;
the stored report 7 is returned even though both abstract pipelines would
error. -/
theorem C9_witness :
    MLRun.compare_ml_efficacy_dispatch ["t", "x"] ["x"] [] (some 7)
      (.error (.valueError "cls"), none) (.error (.valueError "reg"), none) "t"
      = (.ok 7, some 7) :=
  C9_unclassified_target ["t", "x"] ["x"] [] (some 7)
    (.error (.valueError "cls"), none) (.error (.valueError "reg"), none) "t"
    (by decide) (by decide) (by decide)

/-- C1: as written, _eval_classifier raises UnboundLocalError on every
classification run (the line-735/736 slip), so the claimed report shape is
never produced by the code as it stands; the evidently intended
computation satisfies the claimed shape exactly: with 2 joint classes the
report has exactly the two rows for the class at index 1, and with k other
than 2 classes it has 2k rows, two per class. -/
theorem C1_eval_classifier (y_test y_pred_prior y_pred_post : List String) :
    MLRun.eval_classifier y_test y_pred_prior y_pred_post
      = .error (PyErr.unboundLocalError "y_test") ∧
    ((MLRun.classLabels y_test y_pred_prior y_pred_post).length = 2 →
      MLRun.eval_classifier_fixed y_test y_pred_prior y_pred_post
        = [((MLRun.classLabels y_test y_pred_prior y_pred_post).getD 1 "", "Prior"),
           ((MLRun.classLabels y_test y_pred_prior y_pred_post).getD 1 "", "Post")]) ∧
    ((MLRun.classLabels y_test y_pred_prior y_pred_post).length ≠ 2 →
      (MLRun.eval_classifier_fixed y_test y_pred_prior y_pred_post).length
        = 2 * (MLRun.classLabels y_test y_pred_prior y_pred_post).length) := by
  refine ⟨rfl, ?_, ?_⟩
  · intro h
    unfold MLRun.eval_classifier_fixed MLRun.evalIters
    rw [if_pos h]
    rfl
  · intro h
    unfold MLRun.eval_classifier_fixed MLRun.evalIters
    rw [if_neg h, MLRun.flatMap_pair_length, List.length_range]

/-- C1 witness: a binary run; the code path errors, the intended path
produces the two rows of the positive (index 1) class. -/
theorem C1_witness :
    MLRun.eval_classifier ["a", "b"] ["a", "a"] ["b", "b"]
      = .error (PyErr.unboundLocalError "y_test") ∧
    MLRun.eval_classifier_fixed ["a", "b"] ["a", "a"] ["b", "b"]
      = [("b", "Prior"), ("b", "Post")] :=
  ⟨(C1_eval_classifier ["a", "b"] ["a", "a"] ["b", "b"]).1,
   ((C1_eval_classifier ["a", "b"] ["a", "a"] ["b", "b"]).2.1 (by decide)).trans
     (by decide)⟩

/-! ## ML data preparation (_ml_data_prep, lines 531-624)

Dataframes are modelled positionally: a list of column keys plus rows of
cells in key order.  Column keys are structured: a user column name, a
one-hot indicator column created by get_dummies for a (column, value) pair
(pandas names it by string mangling, assumed collision-free), or the
reserved provenance tag column that _ml_data_prep calls source.  Every
operation rebuilds its rows as a map over the output keys, mirroring how
pandas aligns by column label. -/

namespace MLPrep

/-- Column keys of the ML pipeline dataframes. -/
inductive Key where
  | base : String → Key
  | dummy : String → Cell → Key
  | src : Key
deriving DecidableEq

/-- A dataframe: column keys plus rows of cells in key order. -/
structure DF where
  cols : List Key
  rows : List (List Cell)
deriving DecidableEq

/-- Value of a row at a key: the cell aligned with the first occurrence of
the key, NaN when the key is absent (pandas alignment fills NaN). -/
def rowGet : List Key → List Cell → Key → Cell
  | [], _, _ => .nan
  | _ :: _, [], _ => .nan
  | c :: cs, v :: vs, k => if k = c then v else rowGet cs vs k

/-- Column values of a dataframe at a key. -/
def colCells (df : DF) (k : Key) : List Cell :=
  df.rows.map (fun r => rowGet df.cols r k)

/-- First-occurrence deduplication helper carrying the already seen
elements. -/
def dedupFirstAux {α : Type} [DecidableEq α] : List α → List α → List α
  | [], _ => []
  | x :: xs, seen =>
    if x ∈ seen then dedupFirstAux xs seen
    else x :: dedupFirstAux xs (x :: seen)

/-- First-occurrence deduplication, the order pandas concat uses for the
union of column labels. -/
def dedupFirst {α : Type} [DecidableEq α] (l : List α) : List α :=
  dedupFirstAux l []

/-- df[source] = tag (lines 572-574): overwrite the tag column if present,
append it otherwise. -/
def addSrc (df : DF) (tag : String) : DF :=
  { cols := if Key.src ∈ df.cols then df.cols else df.cols ++ [Key.src],
    rows := df.rows.map (fun r =>
      (if Key.src ∈ df.cols then df.cols else df.cols ++ [Key.src]).map
        (fun k => if k = Key.src then Cell.str tag else rowGet df.cols r k)) }

/-- pd.concat of the three tagged frames (line 576): union of columns in
first-seen order, rows aligned by key with NaN for missing columns. -/
def concat3 (d1 d2 d3 : DF) : DF :=
  { cols := dedupFirst (d1.cols ++ d2.cols ++ d3.cols),
    rows :=
      d1.rows.map (fun r => (dedupFirst (d1.cols ++ d2.cols ++ d3.cols)).map (rowGet d1.cols r))
      ++ d2.rows.map (fun r => (dedupFirst (d1.cols ++ d2.cols ++ d3.cols)).map (rowGet d2.cols r))
      ++ d3.rows.map (fun r => (dedupFirst (d1.cols ++ d2.cols ++ d3.cols)).map (rowGet d3.cols r)) }

/-- Deterministic order on cells, modelling pandas sorting of category
values when get_dummies lays out the indicator columns. -/
def cellLeB : Cell → Cell → Bool
  | .nan, _ => true
  | _, .nan => false
  | .num _, .str _ => true
  | .str _, .num _ => false
  | .num a, .num b => decide (a ≤ b)
  | .str a, .str b => Drift.strLeB a b

/-- Sorted distinct non-null values of a column: the categories of its
one-hot expansion. -/
def dummyCells (df : DF) (c : String) : List Cell :=
  isortLe cellLeB (((colCells df (Key.base c)).filter (fun v => !(v == Cell.nan))).dedup)

/-- pd.get_dummies(df, columns=ohe) (line 577): encoded base columns are
removed, indicator columns (grouped per encoded column, categories in
sorted order) are appended, all other columns pass through. -/
def getDummies (df : DF) (ohe : List String) : DF :=
  { cols := df.cols.filter (fun k => !(ohe.any (fun c => k == Key.base c)))
      ++ ohe.flatMap (fun c => (dummyCells df c).map (fun v => Key.dummy c v)),
    rows := df.rows.map (fun r =>
      (df.cols.filter (fun k => !(ohe.any (fun c => k == Key.base c)))
        ++ ohe.flatMap (fun c => (dummyCells df c).map (fun v => Key.dummy c v))).map
        (fun k =>
          match k with
          | Key.dummy c v =>
            if c ∈ ohe then
              (if rowGet df.cols r (Key.base c) = v then Cell.num 1 else Cell.num 0)
            else rowGet df.cols r k
          | _ => rowGet df.cols r k)) }

/-- Row slice by provenance tag (lines 579-581). -/
def sliceSrc (df : DF) (tag : String) : DF :=
  { cols := df.cols,
    rows := df.rows.filter (fun r => rowGet df.cols r Key.src == Cell.str tag) }

/-- drop(column, axis=1): remove every occurrence of the key. -/
def dropCol (df : DF) (k : Key) : DF :=
  { cols := df.cols.filter (fun k' => !(k' == k)),
    rows := df.rows.map (fun r =>
      (df.cols.filter (fun k' => !(k' == k))).map (rowGet df.cols r)) }

/-- drop of a named column, raising KeyError when absent (pandas drop). -/
def dropTargetE (df : DF) (t : String) : Except PyErr DF :=
  if Key.base t ∈ df.cols then .ok (dropCol df (Key.base t)) else .error (.keyError t)

/-- df[cs] selection of named columns, raising KeyError on a missing one. -/
def selectColsE (df : DF) (cs : List String) : Except PyErr DF :=
  match cs.find? (fun c => !(df.cols.contains (Key.base c))) with
  | some c => .error (.keyError c)
  | none => .ok { cols := cs.map Key.base,
                  rows := df.rows.map (fun r => cs.map (fun c => rowGet df.cols r (Key.base c))) }

/-- df[c] single-column selection, raising KeyError when absent. -/
def colCellsE (df : DF) (c : String) : Except PyErr (List Cell) :=
  if Key.base c ∈ df.cols then .ok (colCells df (Key.base c)) else .error (.keyError c)

/-- df[cs] = sub (lines 592-607): overwrite the named columns from the
(equally shaped) transformed frame, keep everything else. -/
def assignCols (df : DF) (cs : List String) (sub : DF) : DF :=
  { cols := df.cols,
    rows := (df.rows.zip sub.rows).map (fun rr =>
      df.cols.map (fun k =>
        if cs.any (fun c => k == Key.base c) then rowGet sub.cols rr.2 k
        else rowGet df.cols rr.1 k)) }

/-- Overwrite one named column with the given values, used to state that
two post datasets differ only in their target column. -/
def setCol (df : DF) (c : String) (vs : List Cell) : DF :=
  { cols := df.cols,
    rows := (df.rows.zip vs).map (fun rv =>
      df.cols.map (fun k => if k = Key.base c then rv.2 else rowGet df.cols rv.1 k)) }

/-- astype(float) on a whole frame. -/
def astypeFloatDF (df : DF) : Except PyErr DF := do
  let rows ← df.rows.mapM (fun r => r.mapM astypeFloatCell)
  .ok { cols := df.cols, rows := rows }

/-- astype(float) on a column. -/
def astypeFloatSeries (l : List Cell) : Except PyErr (List Cell) :=
  l.mapM astypeFloatCell

/-- The target-statistic encoder (category_encoders CatBoostEncoder is the
external collaborator): an abstract fit-transform on training features and
target producing the transformed frame and a fitted state, plus a
transform of further data under that state.  All claims hold for every
encoder, so it is a parameter. -/
structure Encoder (St : Type) where
  fitTransform : DF → List Cell → DF × St
  transform : St → DF → List Cell → DF

/-- The seven artefacts stored by _ml_data_prep (lines 618-624). -/
structure Bundle where
  X_train_prior : DF
  y_train_prior : List Cell
  X_test_prior : DF
  y_test : List Cell
  X_train_post : DF
  y_train_post : List Cell
  X_test_post : DF
deriving DecidableEq

/-- Second stage of _ml_data_prep (lines 579-624): slice the jointly
one-hot-encoded frame back into the three partitions, apply the per-lineage
high-cardinality encoders, and extract the float feature matrices and
target vectors. -/
def ml_data_prep_encode {St : Type} (enc : Encoder St) (df1 : DF)
    (target : String) (hc : List String) : Except PyErr Bundle :=
  let train_prior1 := dropCol (sliceSrc df1 "Train Prior") Key.src
  let test1 := dropCol (sliceSrc df1 "Test") Key.src
  let train_post1 := dropCol (sliceSrc df1 "Train Post") Key.src
  do
      let selTrainPrior ← selectColsE train_prior1 hc
      let yTrainPriorRaw ← colCellsE train_prior1 target
      let ftPrior := enc.fitTransform selTrainPrior yTrainPriorRaw
      let train_prior2 := assignCols train_prior1 hc ftPrior.1
      let selTestPrior ← selectColsE test1 hc
      let yTestRawPrior ← colCellsE test1 target
      let test_prior2 := assignCols test1 hc
        (enc.transform ftPrior.2 selTestPrior yTestRawPrior)
      let selTrainPost ← selectColsE train_post1 hc
      let yTrainPostRaw ← colCellsE train_post1 target
      let ftPost := enc.fitTransform selTrainPost yTrainPostRaw
      let train_post2 := assignCols train_post1 hc ftPost.1
      let selTestPost ← selectColsE test1 hc
      let yTestRawPost ← colCellsE test1 target
      let test_post2 := assignCols test1 hc
        (enc.transform ftPost.2 selTestPost yTestRawPost)
      let xtp0 ← dropTargetE train_prior2 target
      let X_train_prior ← astypeFloatDF xtp0
      let y_train_prior ← astypeFloatSeries (colCells train_prior2 (Key.base target))
      let xsp0 ← dropTargetE test_prior2 target
      let X_test_prior ← astypeFloatDF xsp0
      let y_test ← astypeFloatSeries (colCells test1 (Key.base target))
      let xqp0 ← dropTargetE train_post2 target
      let X_train_post ← astypeFloatDF xqp0
      let y_train_post ← astypeFloatSeries (colCells train_post2 (Key.base target))
      let xsq0 ← dropTargetE test_post2 target
      let X_test_post ← astypeFloatDF xsq0
      .ok { X_train_prior := X_train_prior, y_train_prior := y_train_prior,
            X_test_prior := X_test_prior, y_test := y_test,
            X_train_post := X_train_post, y_train_post := y_train_post,
            X_test_post := X_test_post }

/-- Column-presence check of get_dummies (line 577) followed by the encode
stage: pd.get_dummies raises KeyError when one of the requested columns is
absent from the concatenated frame. -/
def ml_data_prep_ohe {St : Type} (enc : Encoder St) (df0 : DF) (target : String)
    (ohe hc : List String) : Except PyErr Bundle :=
  match ohe.find? (fun c => !(df0.cols.contains (Key.base c))) with
  | some c => .error (.keyError c)
  | none => ml_data_prep_encode enc (getDummies df0 ohe) target hc

/-- _ml_data_prep (lines 531-624): split or adopt external test data, tag
and concatenate the three partitions, one-hot encode jointly, slice back,
encode high-cardinality columns per lineage with separately fitted
encoders (prior encoder fit on prior-train only, post encoder fit on
post-train only), then extract the feature matrices and target vectors as
floats.  perm is the ambient shuffle draw (line 550 does not seed the
shuffle).  Selection or drop of a missing column surfaces the pandas
KeyError of the corresponding source line. -/
def ml_data_prep {St : Type} (enc : Encoder St) (df_prior df_post : DF)
    (test_data : Option DF) (target : String)
    (OHE_columns high_cardinality_columns : List String)
    (random_state : Option ℤ) (perm : List ℕ) (train_size : ℚ) :
    Except PyErr Bundle :=
  let train_post :=
    match test_data with
    | none => { cols := df_post.cols,
                rows := (mlSplitPost random_state perm df_post.rows train_size).1 }
    | some _ => df_post
  let test :=
    match test_data with
    | none => { cols := df_post.cols,
                rows := (mlSplitPost random_state perm df_post.rows train_size).2 }
    | some t => t
  let ohe := OHE_columns.filter (fun c => !(c == target))
  let hc := high_cardinality_columns.filter (fun c => !(c == target))
  let df0 := concat3 (addSrc df_prior "Train Prior") (addSrc test "Test")
    (addSrc train_post "Train Post")
  ml_data_prep_ohe enc df0 target ohe hc

end MLPrep

namespace MLPrep

theorem exceptBind_ok_iff {ε α β : Type} (x : Except ε α) (f : α → Except ε β) (b : β) :
    (x >>= f) = .ok b ↔ ∃ a, x = .ok a ∧ f a = .ok b := by
  cases x with
  | error e =>
    rw [Drift.exceptBind_error]
    simp
  | ok a =>
    rw [Drift.exceptBind_ok]
    simp

theorem assignCols_cols (df : DF) (cs : List String) (sub : DF) :
    (assignCols df cs sub).cols = df.cols := rfl

theorem dropCol_cols (df : DF) (k : Key) :
    (dropCol df k).cols = df.cols.filter (fun k' => !(k' == k)) := rfl

theorem sliceSrc_cols (df : DF) (t : String) : (sliceSrc df t).cols = df.cols := rfl

theorem astypeFloatDF_ok_cols (df x : DF) (h : astypeFloatDF df = .ok x) :
    x.cols = df.cols := by
  unfold astypeFloatDF at h
  cases hm : df.rows.mapM (fun r => r.mapM astypeFloatCell) with
  | error e =>
    rw [hm, Drift.exceptBind_error] at h
    exact Except.noConfusion h
  | ok rows =>
    rw [hm, Drift.exceptBind_ok] at h
    cases h
    rfl

theorem dropTargetE_ok_cols (df : DF) (t : String) (x : DF)
    (h : dropTargetE df t = .ok x) :
    x.cols = df.cols.filter (fun k' => !(k' == Key.base t)) := by
  unfold dropTargetE at h
  split at h
  · cases h
    rfl
  · exact Except.noConfusion h

theorem ml_data_prep_encode_cols {St : Type} (enc : Encoder St) (df1 : DF)
    (target : String) (hc : List String) (b : Bundle)
    (h : ml_data_prep_encode enc df1 target hc = .ok b) :
    b.X_train_prior.cols = b.X_test_prior.cols ∧
    b.X_train_prior.cols = b.X_train_post.cols ∧
    b.X_train_prior.cols = b.X_test_post.cols := by
  unfold ml_data_prep_encode at h
  simp only [exceptBind_ok_iff] at h
  obtain ⟨v1, h1, v2, h2, v3, h3, v4, h4, v5, h5, v6, h6, v7, h7, v8, h8,
    x1, hx1, X1, hX1, y1, hy1, x2, hx2, X2, hX2, yt, hyt, x3, hx3, X3, hX3,
    y3, hy3, x4, hx4, X4, hX4, hb⟩ := h
  injection hb with hb
  subst hb
  have e1 : X1.cols
      = (df1.cols.filter (fun k' => !(k' == Key.src))).filter
          (fun k' => !(k' == Key.base target)) := by
    rw [astypeFloatDF_ok_cols _ _ hX1, dropTargetE_ok_cols _ _ _ hx1,
      assignCols_cols, dropCol_cols, sliceSrc_cols]
  have e2 : X2.cols
      = (df1.cols.filter (fun k' => !(k' == Key.src))).filter
          (fun k' => !(k' == Key.base target)) := by
    rw [astypeFloatDF_ok_cols _ _ hX2, dropTargetE_ok_cols _ _ _ hx2,
      assignCols_cols, dropCol_cols, sliceSrc_cols]
  have e3 : X3.cols
      = (df1.cols.filter (fun k' => !(k' == Key.src))).filter
          (fun k' => !(k' == Key.base target)) := by
    rw [astypeFloatDF_ok_cols _ _ hX3, dropTargetE_ok_cols _ _ _ hx3,
      assignCols_cols, dropCol_cols, sliceSrc_cols]
  have e4 : X4.cols
      = (df1.cols.filter (fun k' => !(k' == Key.src))).filter
          (fun k' => !(k' == Key.base target)) := by
    rw [astypeFloatDF_ok_cols _ _ hX4, dropTargetE_ok_cols _ _ _ hx4,
      assignCols_cols, dropCol_cols, sliceSrc_cols]
  exact ⟨e1.trans e2.symm, e1.trans e3.symm, e1.trans e4.symm⟩

theorem ml_data_prep_ohe_cols {St : Type} (enc : Encoder St) (df0 : DF)
    (target : String) (ohe hc : List String) (b : Bundle)
    (h : ml_data_prep_ohe enc df0 target ohe hc = .ok b) :
    b.X_train_prior.cols = b.X_test_prior.cols ∧
    b.X_train_prior.cols = b.X_train_post.cols ∧
    b.X_train_prior.cols = b.X_test_post.cols := by
  unfold ml_data_prep_ohe at h
  split at h
  · exact Except.noConfusion h
  · exact ml_data_prep_encode_cols _ _ _ _ b h

end MLPrep

/-- C4: whenever the ML data preparation completes (any inputs, any
cardinality assignment, any encoder, with or without external test data),
the four encoded feature matrices have identical column keys in identical
order: each is the joint one-hot-encoded column list minus the provenance
tag and the target, so a category value occurring in only one partition
still yields the same aligned columns everywhere. -/
theorem C4_encoding_alignment {St : Type} (enc : MLPrep.Encoder St)
    (df_prior df_post : MLPrep.DF) (test_data : Option MLPrep.DF) (target : String)
    (OHE_columns high_cardinality_columns : List String) (rs : Option ℤ)
    (perm : List ℕ) (ts : ℚ) (b : MLPrep.Bundle)
    (h : MLPrep.ml_data_prep enc df_prior df_post test_data target OHE_columns
      high_cardinality_columns rs perm ts = .ok b) :
    b.X_train_prior.cols = b.X_test_prior.cols ∧
    b.X_train_prior.cols = b.X_train_post.cols ∧
    b.X_train_prior.cols = b.X_test_post.cols := by
  unfold MLPrep.ml_data_prep at h
  exact MLPrep.ml_data_prep_ohe_cols _ _ _ _ _ b h

namespace MLPrep

theorem rowGet_not_mem (cols : List Key) (r : List Cell) (k : Key) (h : k ∉ cols) :
    rowGet cols r k = Cell.nan := by
  induction cols generalizing r with
  | nil => cases r <;> rfl
  | cons c cs ih =>
    cases r with
    | nil => rfl
    | cons v vs =>
      simp only [rowGet]
      rw [if_neg (fun he => h (by rw [he]; exact List.mem_cons_self c cs))]
      exact ih vs (fun hk => h (List.mem_cons_of_mem c hk))

theorem rowGet_map (cols : List Key) (f : Key → Cell) (k : Key) :
    rowGet cols (cols.map f) k = if k ∈ cols then f k else Cell.nan := by
  induction cols with
  | nil => rfl
  | cons c cs ih =>
    simp only [List.map_cons, rowGet]
    by_cases hk : k = c
    · subst hk
      simp
    · rw [if_neg hk, ih]
      by_cases hmem : k ∈ cs
      · simp [hmem, hk]
      · simp [hmem, hk]

theorem flatMap_congr {α β : Type} (l : List α) (f g : α → List β)
    (h : ∀ a ∈ l, f a = g a) : l.flatMap f = l.flatMap g := by
  induction l with
  | nil => rfl
  | cons x xs ih =>
    simp only [List.flatMap_cons]
    rw [h x (List.mem_cons_self x xs), ih (fun a ha => h a (List.mem_cons_of_mem _ ha))]

theorem map_zip_fst {α β γ : Type} (l : List α) (l' : List β) (f : α × β → γ)
    (g : α → γ) (hlen : l.length ≤ l'.length) (h : ∀ rv, f rv = g rv.1) :
    (l.zip l').map f = l.map g := by
  have h1 : (l.zip l').map f = (l.zip l').map (g ∘ Prod.fst) :=
    List.map_congr_left (fun rv _ => h rv)
  rw [h1, ← List.map_map, List.map_fst_zip l l' hlen]

theorem addSrc_cols_def (df : DF) (t : String) :
    (addSrc df t).cols = if Key.src ∈ df.cols then df.cols else df.cols ++ [Key.src] := rfl

theorem src_mem_addSrc_cols (df : DF) (t : String) : Key.src ∈ (addSrc df t).cols := by
  rw [addSrc_cols_def]
  split
  · assumption
  · exact List.mem_append_right _ (List.mem_cons_self _ _)

theorem addSrc_rows_def (df : DF) (t : String) :
    (addSrc df t).rows = df.rows.map (fun r =>
      (addSrc df t).cols.map
        (fun k => if k = Key.src then Cell.str t else rowGet df.cols r k)) := rfl

theorem addSrc_row_src (df : DF) (t : String) (r : List Cell)
    (hr : r ∈ (addSrc df t).rows) :
    rowGet (addSrc df t).cols r Key.src = Cell.str t := by
  rw [addSrc_rows_def] at hr
  rcases List.mem_map.mp hr with ⟨r0, _, rfl⟩
  rw [rowGet_map, if_pos (src_mem_addSrc_cols df t)]
  simp

theorem setCol_cols (df : DF) (c : String) (vs : List Cell) :
    (setCol df c vs).cols = df.cols := rfl

theorem setCol_rows_def (df : DF) (c : String) (vs : List Cell) :
    (setCol df c vs).rows = (df.rows.zip vs).map (fun rv =>
      df.cols.map (fun k => if k = Key.base c then rv.2 else rowGet df.cols rv.1 k)) := rfl

theorem rowGet_overwrite (cols : List Key) (c : String) (v : Cell) (r : List Cell)
    (k : Key) (hk : k ≠ Key.base c) :
    rowGet cols (cols.map (fun k' => if k' = Key.base c then v else rowGet cols r k')) k
      = rowGet cols r k := by
  rw [rowGet_map]
  by_cases hmem : k ∈ cols
  · rw [if_pos hmem, if_neg hk]
  · rw [if_neg hmem, rowGet_not_mem _ _ _ hmem]

theorem colCells_addSrc_setCol (Q : DF) (c : String) (vs : List Cell) (t : String)
    (k : Key) (hk : k ≠ Key.base c) (hlen : Q.rows.length ≤ vs.length) :
    colCells (addSrc (setCol Q c vs) t) k = colCells (addSrc Q t) k := by
  unfold colCells
  rw [addSrc_rows_def, addSrc_rows_def, setCol_rows_def, List.map_map, List.map_map,
    List.map_map]
  apply map_zip_fst _ _ _ _ hlen
  intro rv
  simp only [Function.comp]
  rw [rowGet_map, rowGet_map]
  have hcols : (addSrc (setCol Q c vs) t).cols = (addSrc Q t).cols := rfl
  rw [hcols]
  by_cases hmem : k ∈ (addSrc Q t).cols
  · rw [if_pos hmem, if_pos hmem]
    by_cases hsrc : k = Key.src
    · rw [if_pos hsrc, if_pos hsrc]
    · rw [if_neg hsrc, if_neg hsrc, setCol_cols]
      exact rowGet_overwrite Q.cols c rv.2 rv.1 k hk
  · rw [if_neg hmem, if_neg hmem]

end MLPrep

namespace MLPrep

theorem concat3_cols_def (d1 d2 d3 : DF) :
    (concat3 d1 d2 d3).cols = dedupFirst (d1.cols ++ d2.cols ++ d3.cols) := rfl

/-- Rows of a pandas concat, one block per input frame, each row remapped to
the union columns. -/
def concatBlock (U : List Key) (d : DF) : List (List Cell) :=
  d.rows.map (fun r => U.map (rowGet d.cols r))

theorem concat3_rows_blocks (d1 d2 d3 : DF) :
    (concat3 d1 d2 d3).rows =
      concatBlock (concat3 d1 d2 d3).cols d1 ++ concatBlock (concat3 d1 d2 d3).cols d2
        ++ concatBlock (concat3 d1 d2 d3).cols d3 := rfl

theorem concat3_cols_congr (d1 d2 d3 d1' d2' d3' : DF)
    (h1 : d1'.cols = d1.cols) (h2 : d2'.cols = d2.cols) (h3 : d3'.cols = d3.cols) :
    (concat3 d1' d2' d3').cols = (concat3 d1 d2 d3).cols := by
  rw [concat3_cols_def, concat3_cols_def, h1, h2, h3]

theorem concatBlock_congr (U : List Key) (d d' : DF) (k : Key)
    (hc : d'.cols = d.cols) (h : colCells d' k = colCells d k) :
    (concatBlock U d').map (fun r => rowGet U r k)
      = (concatBlock U d).map (fun r => rowGet U r k) := by
  unfold concatBlock
  rw [List.map_map, List.map_map]
  have harm : ∀ (dd : DF) (r : List Cell),
      ((fun r => rowGet U r k) ∘ fun r => U.map (rowGet dd.cols r)) r
        = if k ∈ U then rowGet dd.cols r k else Cell.nan := by
    intro dd r
    simp only [Function.comp]
    rw [rowGet_map]
  rw [List.map_congr_left (fun r _ => harm d' r),
    List.map_congr_left (fun r _ => harm d r)]
  by_cases hkU : k ∈ U
  · simp only [if_pos hkU]
    exact h
  · simp only [if_neg hkU]
    rw [List.map_const', List.map_const']
    have hlen : d'.rows.length = d.rows.length := by
      have := congrArg List.length h
      simpa [colCells] using this
    rw [hlen]

theorem colCells_concat3_congr (d1 d2 d3 d1' d2' d3' : DF) (k : Key)
    (h1c : d1'.cols = d1.cols) (h2c : d2'.cols = d2.cols) (h3c : d3'.cols = d3.cols)
    (h1 : colCells d1' k = colCells d1 k) (h2 : colCells d2' k = colCells d2 k)
    (h3 : colCells d3' k = colCells d3 k) :
    colCells (concat3 d1' d2' d3') k = colCells (concat3 d1 d2 d3) k := by
  have hU : (concat3 d1' d2' d3').cols = (concat3 d1 d2 d3).cols :=
    concat3_cols_congr _ _ _ _ _ _ h1c h2c h3c
  unfold colCells
  rw [concat3_rows_blocks, concat3_rows_blocks, hU]
  simp only [List.map_append]
  rw [concatBlock_congr _ _ _ k h1c h1, concatBlock_congr _ _ _ k h2c h2,
    concatBlock_congr _ _ _ k h3c h3]

theorem filter_concatBlock_addSrc_ne (U : List Key) (D : DF) (tC t : String)
    (ht : (Cell.str tC == Cell.str t) = false) :
    (concatBlock U (addSrc D tC)).filter
      (fun r => rowGet U r Key.src == Cell.str t) = [] := by
  rw [List.filter_eq_nil_iff]
  intro r hr
  rcases List.mem_map.mp hr with ⟨r0, hr0, rfl⟩
  rw [rowGet_map]
  by_cases hsrc : Key.src ∈ U
  · rw [if_pos hsrc, addSrc_row_src _ _ _ hr0]
    simp only [ht]
    exact Bool.false_ne_true ∘ fun h => h
  · rw [if_neg hsrc]
    simp

theorem dummyCells_congr (df df' : DF) (c : String)
    (h : colCells df' (Key.base c) = colCells df (Key.base c)) :
    dummyCells df' c = dummyCells df c := by
  unfold dummyCells
  rw [h]

theorem getDummies_cols_congr (df df' : DF) (ohe : List String)
    (hcols : df'.cols = df.cols)
    (hdum : ∀ c ∈ ohe, dummyCells df' c = dummyCells df c) :
    (getDummies df' ohe).cols = (getDummies df ohe).cols := by
  show df'.cols.filter _ ++ ohe.flatMap _ = df.cols.filter _ ++ ohe.flatMap _
  rw [hcols]
  congr 1
  exact flatMap_congr _ _ _ (fun c hc => by rw [hdum c hc])

theorem getDummies_rows_def (df : DF) (ohe : List String) :
    (getDummies df ohe).rows = df.rows.map (fun r =>
      (getDummies df ohe).cols.map (fun k =>
        match k with
        | Key.dummy c v =>
          if c ∈ ohe then
            (if rowGet df.cols r (Key.base c) = v then Cell.num 1 else Cell.num 0)
          else rowGet df.cols r k
        | _ => rowGet df.cols r k)) := rfl

theorem sliceSrc_getDummies_congr (df0 df0' : DF) (ohe : List String) (tag : String)
    (hcols : df0'.cols = df0.cols)
    (hdum : ∀ c ∈ ohe, dummyCells df0' c = dummyCells df0 c)
    (hfilt : df0'.rows.filter (fun r => rowGet df0.cols r Key.src == Cell.str tag)
           = df0.rows.filter (fun r => rowGet df0.cols r Key.src == Cell.str tag)) :
    sliceSrc (getDummies df0' ohe) tag = sliceSrc (getDummies df0 ohe) tag := by
  have hV : (getDummies df0' ohe).cols = (getDummies df0 ohe).cols :=
    getDummies_cols_congr df0 df0' ohe hcols hdum
  unfold sliceSrc
  rw [DF.mk.injEq]
  refine ⟨hV, ?_⟩
  rw [getDummies_rows_def, getDummies_rows_def, hV, hcols,
    List.filter_map, List.filter_map]
  have harm : ∀ r : List Cell,
      ((fun r' => rowGet (getDummies df0 ohe).cols r' Key.src == Cell.str tag) ∘
        fun r => (getDummies df0 ohe).cols.map (fun k =>
          match k with
          | Key.dummy c v =>
            if c ∈ ohe then
              (if rowGet df0.cols r (Key.base c) = v then Cell.num 1 else Cell.num 0)
            else rowGet df0.cols r k
          | _ => rowGet df0.cols r k)) r
        = if Key.src ∈ (getDummies df0 ohe).cols
          then (rowGet df0.cols r Key.src == Cell.str tag) else false := by
    intro r
    simp only [Function.comp]
    rw [rowGet_map]
    by_cases hsrc : Key.src ∈ (getDummies df0 ohe).cols
    · rw [if_pos hsrc, if_pos hsrc]
    · rw [if_neg hsrc, if_neg hsrc]
      rfl
  rw [List.filter_congr (fun r _ => harm r), List.filter_congr (fun r _ => harm r)]
  by_cases hsrc : Key.src ∈ (getDummies df0 ohe).cols
  · simp only [if_pos hsrc]
    rw [hfilt]
  · simp only [if_neg hsrc]
    rw [List.filter_eq_nil_iff.mpr (fun a _ => by simp),
      List.filter_eq_nil_iff.mpr (fun a _ => by simp)]

end MLPrep

namespace MLPrep

theorem ml_data_prep_encode_prior_eq {St : Type} (enc : Encoder St) (df1 df1' : DF)
    (target : String) (hc : List String) (b b' : Bundle)
    (hTP : sliceSrc df1' "Train Prior" = sliceSrc df1 "Train Prior")
    (hT : sliceSrc df1' "Test" = sliceSrc df1 "Test")
    (h : ml_data_prep_encode enc df1 target hc = .ok b)
    (h' : ml_data_prep_encode enc df1' target hc = .ok b') :
    b'.X_train_prior = b.X_train_prior ∧ b'.X_test_prior = b.X_test_prior := by
  unfold ml_data_prep_encode at h h'
  rw [hTP, hT] at h'
  simp only [exceptBind_ok_iff] at h h'
  obtain ⟨a1, ha1, a2, ha2, a3, ha3, a4, ha4, a5, ha5, a6, ha6, a7, ha7, a8, ha8,
    x1, hx1, X1, hX1, y1, hy1, x2, hx2, X2, hX2, yt, hyt, x3, hx3, X3, hX3,
    y3, hy3, x4, hx4, X4, hX4, hb⟩ := h
  obtain ⟨a1', ha1', a2', ha2', a3', ha3', a4', ha4', a5', ha5', a6', ha6', a7',
    ha7', a8', ha8', x1', hx1', X1', hX1', y1', hy1', x2', hx2', X2', hX2', yt',
    hyt', x3', hx3', X3', hX3', y3', hy3', x4', hx4', X4', hX4', hb'⟩ := h'
  rw [ha1] at ha1'
  injection ha1' with e1
  subst e1
  rw [ha2] at ha2'
  injection ha2' with e2
  subst e2
  rw [ha3] at ha3'
  injection ha3' with e3
  subst e3
  rw [ha4] at ha4'
  injection ha4' with e4
  subst e4
  rw [hx1] at hx1'
  injection hx1' with ex1
  subst ex1
  rw [hX1] at hX1'
  injection hX1' with eX1
  subst eX1
  rw [hx2] at hx2'
  injection hx2' with ex2
  subst ex2
  rw [hX2] at hX2'
  injection hX2' with eX2
  subst eX2
  injection hb with hb
  injection hb' with hb'
  subst hb
  subst hb'
  exact ⟨rfl, rfl⟩

theorem ml_data_prep_encode_post_eq {St : Type} (enc : Encoder St) (df1 df1' : DF)
    (target : String) (hc : List String) (b b' : Bundle)
    (hTP : sliceSrc df1' "Train Post" = sliceSrc df1 "Train Post")
    (hT : sliceSrc df1' "Test" = sliceSrc df1 "Test")
    (h : ml_data_prep_encode enc df1 target hc = .ok b)
    (h' : ml_data_prep_encode enc df1' target hc = .ok b') :
    b'.X_train_post = b.X_train_post ∧ b'.X_test_post = b.X_test_post := by
  unfold ml_data_prep_encode at h h'
  rw [hTP, hT] at h'
  simp only [exceptBind_ok_iff] at h h'
  obtain ⟨a1, ha1, a2, ha2, a3, ha3, a4, ha4, a5, ha5, a6, ha6, a7, ha7, a8, ha8,
    x1, hx1, X1, hX1, y1, hy1, x2, hx2, X2, hX2, yt, hyt, x3, hx3, X3, hX3,
    y3, hy3, x4, hx4, X4, hX4, hb⟩ := h
  obtain ⟨a1', ha1', a2', ha2', a3', ha3', a4', ha4', a5', ha5', a6', ha6', a7',
    ha7', a8', ha8', x1', hx1', X1', hX1', y1', hy1', x2', hx2', X2', hX2', yt',
    hyt', x3', hx3', X3', hX3', y3', hy3', x4', hx4', X4', hX4', hb'⟩ := h'
  rw [ha5] at ha5'
  injection ha5' with e5
  subst e5
  rw [ha6] at ha6'
  injection ha6' with e6
  subst e6
  rw [ha7] at ha7'
  injection ha7' with e7
  subst e7
  rw [ha8] at ha8'
  injection ha8' with e8
  subst e8
  rw [hx3] at hx3'
  injection hx3' with ex3
  subst ex3
  rw [hX3] at hX3'
  injection hX3' with eX3
  subst eX3
  rw [hx4] at hx4'
  injection hx4' with ex4
  subst ex4
  rw [hX4] at hX4'
  injection hX4' with eX4
  subst eX4
  injection hb with hb
  injection hb' with hb'
  subst hb
  subst hb'
  exact ⟨rfl, rfl⟩

end MLPrep

namespace MLPrep

theorem ml_data_prep_ohe_prior_congr {St : Type} (enc : Encoder St) (df0 df0' : DF)
    (target : String) (ohe hc : List String) (b b' : Bundle)
    (hcols : df0'.cols = df0.cols)
    (hdum : ∀ c ∈ ohe, dummyCells df0' c = dummyCells df0 c)
    (hfTP : df0'.rows.filter (fun r => rowGet df0.cols r Key.src == Cell.str "Train Prior")
          = df0.rows.filter (fun r => rowGet df0.cols r Key.src == Cell.str "Train Prior"))
    (hfT : df0'.rows.filter (fun r => rowGet df0.cols r Key.src == Cell.str "Test")
         = df0.rows.filter (fun r => rowGet df0.cols r Key.src == Cell.str "Test"))
    (h : ml_data_prep_ohe enc df0 target ohe hc = .ok b)
    (h' : ml_data_prep_ohe enc df0' target ohe hc = .ok b') :
    b'.X_train_prior = b.X_train_prior ∧ b'.X_test_prior = b.X_test_prior := by
  unfold ml_data_prep_ohe at h h'
  rw [hcols] at h'
  split at h
  · exact Except.noConfusion h
  · split at h'
    · exact Except.noConfusion h'
    · exact ml_data_prep_encode_prior_eq enc (getDummies df0 ohe) (getDummies df0' ohe)
        target hc b b'
        (sliceSrc_getDummies_congr df0 df0' ohe "Train Prior" hcols hdum hfTP)
        (sliceSrc_getDummies_congr df0 df0' ohe "Test" hcols hdum hfT) h h'

theorem ml_data_prep_ohe_post_congr {St : Type} (enc : Encoder St) (df0 df0' : DF)
    (target : String) (ohe hc : List String) (b b' : Bundle)
    (hcols : df0'.cols = df0.cols)
    (hdum : ∀ c ∈ ohe, dummyCells df0' c = dummyCells df0 c)
    (hfTP : df0'.rows.filter (fun r => rowGet df0.cols r Key.src == Cell.str "Train Post")
          = df0.rows.filter (fun r => rowGet df0.cols r Key.src == Cell.str "Train Post"))
    (hfT : df0'.rows.filter (fun r => rowGet df0.cols r Key.src == Cell.str "Test")
         = df0.rows.filter (fun r => rowGet df0.cols r Key.src == Cell.str "Test"))
    (h : ml_data_prep_ohe enc df0 target ohe hc = .ok b)
    (h' : ml_data_prep_ohe enc df0' target ohe hc = .ok b') :
    b'.X_train_post = b.X_train_post ∧ b'.X_test_post = b.X_test_post := by
  unfold ml_data_prep_ohe at h h'
  rw [hcols] at h'
  split at h
  · exact Except.noConfusion h
  · split at h'
    · exact Except.noConfusion h'
    · exact ml_data_prep_encode_post_eq enc (getDummies df0 ohe) (getDummies df0' ohe)
        target hc b b'
        (sliceSrc_getDummies_congr df0 df0' ohe "Train Post" hcols hdum hfTP)
        (sliceSrc_getDummies_congr df0 df0' ohe "Test" hcols hdum hfT) h h'

theorem concat3_filter_third_setCol (d1 d2 Q : DF) (c : String) (vs : List Cell)
    (tC t : String) (ht : (Cell.str tC == Cell.str t) = false) :
    (concat3 d1 d2 (addSrc (setCol Q c vs) tC)).rows.filter
      (fun r => rowGet (concat3 d1 d2 (addSrc Q tC)).cols r Key.src == Cell.str t)
    = (concat3 d1 d2 (addSrc Q tC)).rows.filter
      (fun r => rowGet (concat3 d1 d2 (addSrc Q tC)).cols r Key.src == Cell.str t) := by
  have hcols : (concat3 d1 d2 (addSrc (setCol Q c vs) tC)).cols
      = (concat3 d1 d2 (addSrc Q tC)).cols :=
    concat3_cols_congr _ _ _ _ _ _ rfl rfl rfl
  rw [concat3_rows_blocks, concat3_rows_blocks, hcols]
  rw [List.filter_append, List.filter_append, List.filter_append, List.filter_append]
  rw [filter_concatBlock_addSrc_ne _ _ tC t ht, filter_concatBlock_addSrc_ne _ _ tC t ht]

theorem concat3_filter_first_setCol (P : DF) (d2 d3 : DF) (c : String) (vs : List Cell)
    (tA t : String) (ht : (Cell.str tA == Cell.str t) = false) :
    (concat3 (addSrc (setCol P c vs) tA) d2 d3).rows.filter
      (fun r => rowGet (concat3 (addSrc P tA) d2 d3).cols r Key.src == Cell.str t)
    = (concat3 (addSrc P tA) d2 d3).rows.filter
      (fun r => rowGet (concat3 (addSrc P tA) d2 d3).cols r Key.src == Cell.str t) := by
  have hcols : (concat3 (addSrc (setCol P c vs) tA) d2 d3).cols
      = (concat3 (addSrc P tA) d2 d3).cols :=
    concat3_cols_congr _ _ _ _ _ _ rfl rfl rfl
  rw [concat3_rows_blocks, concat3_rows_blocks, hcols]
  rw [List.filter_append, List.filter_append, List.filter_append, List.filter_append]
  rw [filter_concatBlock_addSrc_ne _ _ tA t ht, filter_concatBlock_addSrc_ne _ _ tA t ht]

end MLPrep

/-- C5: noninterference of the per-lineage high-cardinality encoders.  The
prior encoder is fit only on prior-training rows and the post encoder only
on post-training rows (lines 587-607), so for any encoder: two completing
runs that agree on prior-training and test rows but whose post-training
target column is overwritten produce identical encoded prior training and
test feature matrices; symmetrically, overwriting the prior-training
target column leaves the post lineage's encoded matrices unchanged. -/
theorem C5_catboost_noninterference {St : Type} (enc : MLPrep.Encoder St) :
    (∀ (P Q T : MLPrep.DF) (vs : List Cell) (target : String)
       (OHE high : List String) (rs : Option ℤ) (perm : List ℕ) (ts : ℚ)
       (b b' : MLPrep.Bundle),
       Q.rows.length ≤ vs.length →
       MLPrep.ml_data_prep enc P Q (some T) target OHE high rs perm ts = .ok b →
       MLPrep.ml_data_prep enc P (MLPrep.setCol Q target vs) (some T) target OHE
         high rs perm ts = .ok b' →
       b'.X_train_prior = b.X_train_prior ∧ b'.X_test_prior = b.X_test_prior) ∧
    (∀ (P Q T : MLPrep.DF) (vs : List Cell) (target : String)
       (OHE high : List String) (rs : Option ℤ) (perm : List ℕ) (ts : ℚ)
       (b b' : MLPrep.Bundle),
       P.rows.length ≤ vs.length →
       MLPrep.ml_data_prep enc P Q (some T) target OHE high rs perm ts = .ok b →
       MLPrep.ml_data_prep enc (MLPrep.setCol P target vs) Q (some T) target OHE
         high rs perm ts = .ok b' →
       b'.X_train_post = b.X_train_post ∧ b'.X_test_post = b.X_test_post) := by
  constructor
  · intro P Q T vs target OHE high rs perm ts b b' hlen h h'
    unfold MLPrep.ml_data_prep at h h'
    refine MLPrep.ml_data_prep_ohe_prior_congr enc _ _ target _ _ b b' ?_ ?_ ?_ ?_ h h'
    · exact MLPrep.concat3_cols_congr _ _ _ _ _ _ rfl rfl rfl
    · intro c hcmem
      have hne : c ≠ target := by
        have := (List.mem_filter.mp hcmem).2
        simpa using this
      refine MLPrep.dummyCells_congr _ _ c
        (MLPrep.colCells_concat3_congr _ _ _ _ _ _ (MLPrep.Key.base c)
          rfl rfl rfl rfl rfl ?_)
      refine MLPrep.colCells_addSrc_setCol Q target vs "Train Post" (MLPrep.Key.base c)
        ?_ hlen
      intro he
      injection he with he
      exact hne he
    · exact MLPrep.concat3_filter_third_setCol _ _ Q target vs "Train Post"
        "Train Prior" (by decide)
    · exact MLPrep.concat3_filter_third_setCol _ _ Q target vs "Train Post"
        "Test" (by decide)
  · intro P Q T vs target OHE high rs perm ts b b' hlen h h'
    unfold MLPrep.ml_data_prep at h h'
    refine MLPrep.ml_data_prep_ohe_post_congr enc _ _ target _ _ b b' ?_ ?_ ?_ ?_ h h'
    · exact MLPrep.concat3_cols_congr _ _ _ _ _ _ rfl rfl rfl
    · intro c hcmem
      have hne : c ≠ target := by
        have := (List.mem_filter.mp hcmem).2
        simpa using this
      refine MLPrep.dummyCells_congr _ _ c
        (MLPrep.colCells_concat3_congr _ _ _ _ _ _ (MLPrep.Key.base c)
          rfl rfl rfl ?_ rfl rfl)
      refine MLPrep.colCells_addSrc_setCol P target vs "Train Prior" (MLPrep.Key.base c)
        ?_ hlen
      intro he
      injection he with he
      exact hne he
    · exact MLPrep.concat3_filter_first_setCol P _ _ target vs "Train Prior"
        "Train Post" (by decide)
    · exact MLPrep.concat3_filter_first_setCol P _ _ target vs "Train Prior"
        "Test" (by decide)

/-- Trivial encoder instance for the C4 witness. -/
def encW4 : MLPrep.Encoder Unit := ⟨fun X _ => (X, ()), fun _ X _ => X⟩

/-- Prior dataset of the C4 witness: numeric target t, categorical g. -/
def dfPriorW4 : MLPrep.DF :=
  ⟨[MLPrep.Key.base "t", MLPrep.Key.base "g"], [[Cell.num 1, Cell.str "a"]]⟩

/-- Post dataset of the C4 witness; its g value b occurs in no other
partition. -/
def dfPostW4 : MLPrep.DF :=
  ⟨[MLPrep.Key.base "t", MLPrep.Key.base "g"], [[Cell.num 2, Cell.str "b"]]⟩

/-- External test dataset of the C4 witness. -/
def testW4 : MLPrep.DF :=
  ⟨[MLPrep.Key.base "t", MLPrep.Key.base "g"], [[Cell.num 3, Cell.str "a"]]⟩


/-- Prepared bundle that the C4 witness run computes. -/
def bW4 : MLPrep.Bundle :=
  { X_train_prior := { cols := [MLPrep.Key.dummy "g" (Cell.str "a"),
                                MLPrep.Key.dummy "g" (Cell.str "b")],
                       rows := [[Cell.num 1, Cell.num 0]] },
    y_train_prior := [Cell.num 1],
    X_test_prior := { cols := [MLPrep.Key.dummy "g" (Cell.str "a"),
                               MLPrep.Key.dummy "g" (Cell.str "b")],
                      rows := [[Cell.num 1, Cell.num 0]] },
    y_test := [Cell.num 3],
    X_train_post := { cols := [MLPrep.Key.dummy "g" (Cell.str "a"),
                               MLPrep.Key.dummy "g" (Cell.str "b")],
                      rows := [[Cell.num 0, Cell.num 1]] },
    y_train_post := [Cell.num 2],
    X_test_post := { cols := [MLPrep.Key.dummy "g" (Cell.str "a"),
                              MLPrep.Key.dummy "g" (Cell.str "b")],
                     rows := [[Cell.num 1, Cell.num 0]] } }

/-- Evaluation of the C4 witness run. -/
theorem bW4_run :
    MLPrep.ml_data_prep encW4 dfPriorW4 dfPostW4 (some testW4) "t" ["g"] []
        none [] (7/10) = .ok bW4 := rfl

/-- C4 witness: a concrete completing run, with the alignment read off by
the theorem. -/
theorem C4_witness :
    MLPrep.ml_data_prep encW4 dfPriorW4 dfPostW4 (some testW4) "t" ["g"] []
        none [] (7/10) = .ok bW4 ∧
    (bW4.X_train_prior.cols = bW4.X_test_prior.cols ∧
     bW4.X_train_prior.cols = bW4.X_train_post.cols ∧
     bW4.X_train_prior.cols = bW4.X_test_post.cols) :=
  ⟨bW4_run, C4_encoding_alignment encW4 dfPriorW4 dfPostW4 (some testW4) "t" ["g"]
    [] none [] (7/10) bW4 bW4_run⟩

/-- Trivial encoder instance for the C5 witness. -/
def encW5 : MLPrep.Encoder Unit := ⟨fun X _ => (X, ()), fun _ X _ => X⟩

/-- Prior dataset of the C5 witness. -/
def dfPriorW5 : MLPrep.DF :=
  ⟨[MLPrep.Key.base "t", MLPrep.Key.base "g"], [[Cell.num 1, Cell.str "a"]]⟩

/-- Post dataset of the C5 witness; run two overwrites its target value. -/
def dfPostW5 : MLPrep.DF :=
  ⟨[MLPrep.Key.base "t", MLPrep.Key.base "g"], [[Cell.num 2, Cell.str "b"]]⟩

/-- External test dataset of the C5 witness. -/
def testW5 : MLPrep.DF :=
  ⟨[MLPrep.Key.base "t", MLPrep.Key.base "g"], [[Cell.num 3, Cell.str "a"]]⟩

/-- Bundle computed by the first C5 witness run. -/
def bW5 : MLPrep.Bundle :=
  { X_train_prior := { cols := [MLPrep.Key.dummy "g" (Cell.str "a"),
                                MLPrep.Key.dummy "g" (Cell.str "b")],
                       rows := [[Cell.num 1, Cell.num 0]] },
    y_train_prior := [Cell.num 1],
    X_test_prior := { cols := [MLPrep.Key.dummy "g" (Cell.str "a"),
                               MLPrep.Key.dummy "g" (Cell.str "b")],
                      rows := [[Cell.num 1, Cell.num 0]] },
    y_test := [Cell.num 3],
    X_train_post := { cols := [MLPrep.Key.dummy "g" (Cell.str "a"),
                               MLPrep.Key.dummy "g" (Cell.str "b")],
                      rows := [[Cell.num 0, Cell.num 1]] },
    y_train_post := [Cell.num 2],
    X_test_post := { cols := [MLPrep.Key.dummy "g" (Cell.str "a"),
                              MLPrep.Key.dummy "g" (Cell.str "b")],
                     rows := [[Cell.num 1, Cell.num 0]] } }

/-- Bundle computed by the second C5 witness run, whose post-training
target value was overwritten with 9: only y_train_post changes. -/
def bW5' : MLPrep.Bundle :=
  { X_train_prior := { cols := [MLPrep.Key.dummy "g" (Cell.str "a"),
                                MLPrep.Key.dummy "g" (Cell.str "b")],
                       rows := [[Cell.num 1, Cell.num 0]] },
    y_train_prior := [Cell.num 1],
    X_test_prior := { cols := [MLPrep.Key.dummy "g" (Cell.str "a"),
                               MLPrep.Key.dummy "g" (Cell.str "b")],
                      rows := [[Cell.num 1, Cell.num 0]] },
    y_test := [Cell.num 3],
    X_train_post := { cols := [MLPrep.Key.dummy "g" (Cell.str "a"),
                               MLPrep.Key.dummy "g" (Cell.str "b")],
                      rows := [[Cell.num 0, Cell.num 1]] },
    y_train_post := [Cell.num 9],
    X_test_post := { cols := [MLPrep.Key.dummy "g" (Cell.str "a"),
                              MLPrep.Key.dummy "g" (Cell.str "b")],
                     rows := [[Cell.num 1, Cell.num 0]] } }

/-- Evaluation of the first C5 witness run. -/
theorem bW5_run :
    MLPrep.ml_data_prep encW5 dfPriorW5 dfPostW5 (some testW5) "t" ["g"] [] none
        [] (7/10) = .ok bW5 := rfl

/-- Evaluation of the second C5 witness run. -/
theorem bW5_run' :
    MLPrep.ml_data_prep encW5 dfPriorW5 (MLPrep.setCol dfPostW5 "t" [Cell.num 9])
        (some testW5) "t" ["g"] [] none [] (7/10) = .ok bW5' := rfl

/-- C5 witness: two concrete completing runs differing only in the
post-training target value; the prior lineage's encoded matrices agree. -/
theorem C5_witness :
    MLPrep.ml_data_prep encW5 dfPriorW5 dfPostW5 (some testW5) "t" ["g"] [] none
        [] (7/10) = .ok bW5 ∧
    MLPrep.ml_data_prep encW5 dfPriorW5 (MLPrep.setCol dfPostW5 "t" [Cell.num 9])
        (some testW5) "t" ["g"] [] none [] (7/10) = .ok bW5' ∧
    (bW5'.X_train_prior = bW5.X_train_prior ∧ bW5'.X_test_prior = bW5.X_test_prior) :=
  ⟨bW5_run, bW5_run',
    (C5_catboost_noninterference encW5).1 dfPriorW5 dfPostW5 testW5 [Cell.num 9]
      "t" ["g"] [] none [] (7/10) bW5 bW5' (by decide) bW5_run bW5_run'⟩
